import Mathlib

/-!
Formal model of the OpenRCT2 window manager core, embedded from
`src/openrct2/interface/Window.cpp`.  The window list is modelled as a Lean
`List Window` in back-to-front z-order (array order in the source); machine
integers (`sint16`, `sint32`) are modelled as `Int` (no arithmetic in the
modelled operations comes near the overflow boundaries exercised by the
claims); window flag bitmasks are modelled as a structure of booleans, since
the modelled code only ever tests and sets individual named bits.
-/

namespace WM

/-- Widget type tags (the `WWT_*` enumeration).  The modelled code only
compares type tags for equality, so the numeric values are irrelevant. -/
inductive WidgetType where
  | empty
  | frame
  | button
  | imgbtn
  | scroll
  | dropdown
  | stepper
  | trnbtn
  | last
  deriving DecidableEq, Repr

/-- One entry of a window's widget table (`rct_widget`): a type tag and its
geometry, relative to the window origin. -/
structure Widget where
  type : WidgetType
  left : Int
  right : Int
  top : Int
  bottom : Int
  deriving DecidableEq, Repr

/-- Per-scroll-region state (`rct_scroll`).  The `HSCROLLBAR_VISIBLE` and
`VSCROLLBAR_VISIBLE` bits of the `flags` word are modelled as two booleans;
the modelled code tests no other bit.  The computed thumb extents are not
part of the modelled state (`widget_scroll_update_thumbs` recomputes them
from the fields below and is external to the excerpted core). -/
structure ScrollArea where
  h_visible : Bool
  v_visible : Bool
  h_left : Int
  h_right : Int
  v_top : Int
  v_bottom : Int
  deriving DecidableEq, Repr

/-- A world viewport owned by a window (`rct_viewport`).  `underground`
models bit 0 of the viewport flags word, the only viewport flag the
modelled code touches. -/
structure Viewport where
  x : Int
  y : Int
  width : Int
  height : Int
  view_x : Int
  view_y : Int
  view_width : Int
  view_height : Int
  zoom : Int
  underground : Bool
  deriving DecidableEq, Repr

/-- The window flag bitset (`WF_*`), as a structure of booleans. -/
structure WFlags where
  stick_to_back : Bool
  stick_to_front : Bool
  no_auto_close : Bool
  transparent : Bool
  no_background : Bool
  no_scrolling : Bool
  scrolling_to_location : Bool
  deriving DecidableEq, Repr

/-- The all-clear flag bitset. -/
def WFlags.none : WFlags :=
  ⟨false, false, false, false, false, false, false⟩

/-- Whether two flag bitsets share a set bit (`(a & b) != 0`). -/
def WFlags.meets (a b : WFlags) : Bool :=
  (a.stick_to_back && b.stick_to_back) ||
  (a.stick_to_front && b.stick_to_front) ||
  (a.no_auto_close && b.no_auto_close) ||
  (a.transparent && b.transparent) ||
  (a.no_background && b.no_background) ||
  (a.no_scrolling && b.no_scrolling) ||
  (a.scrolling_to_location && b.scrolling_to_location)

/-- One window record (`rct_window`).  `viewport_target_sprite = none` models
the `SPRITE_INDEX_NULL` sentinel. -/
structure Window where
  classification : Int
  number : Int
  x : Int
  y : Int
  width : Int
  height : Int
  flags : WFlags
  viewport : Option Viewport
  widgets : List Widget
  scrolls : List ScrollArea
  saved_view_x : Int
  saved_view_y : Int
  viewport_target_sprite : Option Int
  viewport_smart_follow_sprite : Option Int
  deriving DecidableEq, Repr

/-- The test `w->flags & (WF_STICK_TO_BACK | WF_STICK_TO_FRONT)`. -/
def Window.sticky (w : Window) : Bool :=
  w.flags.stick_to_back || w.flags.stick_to_front

/-- The test `w->flags & (WF_STICK_TO_BACK | WF_STICK_TO_FRONT | WF_NO_AUTO_CLOSE)`:
the windows protected from surplus eviction. -/
def Window.evictionProtected (w : Window) : Bool :=
  w.flags.stick_to_back || w.flags.stick_to_front || w.flags.no_auto_close

/-- A screen rectangle, given by its edges (half-open in both axes the way
the drawing code treats it). -/
structure Rect where
  left : Int
  top : Int
  right : Int
  bottom : Int
  deriving DecidableEq, Repr

/-- The screen rectangle currently occupied by a window, as passed to
`gfx_set_dirty_blocks` by `window_invalidate`. -/
def windowRect (w : Window) : Rect :=
  ⟨w.x, w.y, w.x + w.width, w.y + w.height⟩

/-- The `WC_MAIN_WINDOW` classification tag.  The value is symbolic: the
modelled code only compares classifications for equality. -/
def WC_MAIN_WINDOW : Int := 0

/-- The `WC_DROPDOWN` classification tag (symbolic, as for `WC_MAIN_WINDOW`). -/
def WC_DROPDOWN : Int := 114

/-- The `WC_OPTIONS` classification tag (symbolic, as for `WC_MAIN_WINDOW`). -/
def WC_OPTIONS : Int := 118

/-- The global mutable state touched by the modelled operations: the window
list `g_window_list[0] .. gWindowNextSlot-1` in back-to-front z-order, the
log of rectangles passed to `gfx_set_dirty_blocks` (the dirty-block
coalescing itself is outside the core), and `gConfigGeneral.window_limit`. -/
structure WMState where
  windows : List Window
  dirty : List Rect
  windowLimit : Int
  deriving DecidableEq, Repr

/-- A window's close-event handler set (`window_event_close_call`): an
arbitrary state transformer given the window being closed.  Window-class
handler tables live outside the excerpted core, so theorems quantify over
this. -/
def Handler : Type :=
  WMState → Window → WMState

/-- The close handler used by window classes with a null `close` entry:
a no-op (`null handler means no-op`). -/
def noHandler : Handler :=
  fun s _ => s

/-- Source `window_invalidate`: mark the window's current screen rectangle dirty. -/
def window_invalidate (s : WMState) (w : Window) : WMState :=
  { s with dirty := s.dirty ++ [windowRect w] }

/-- Source `window_find_by_number`: index of the first window with the given
classification and number, scanning from the back of the z-order. -/
def window_find_by_number (ws : List Window) (cls number : Int) : Option Nat :=
  ws.findIdx? (fun w => w.classification = cls && w.number = number)

/-- Source `window_close`.  The close event is dispatched first; the record is
then re-resolved by classification and number (the handler may have mutated
the list); if still present, its viewport is discarded with it and the list
is compacted by the `memmove`, shifting all later entries down one slot.
(`viewport_update_pointers` at the end touches only the external viewport
pool and has no effect on the modelled state.) -/
def window_close (h : Handler) (s : WMState) (w? : Option Window) : WMState :=
  match w? with
  | none => s
  | some w =>
    -- Make a copy of the window class and number in case
    -- the window order is changed by the close event.
    let cls := w.classification
    let number := w.number
    let s1 := h s w
    match window_find_by_number s1.windows cls number with
    | none => s1
    | some idx =>
      match s1.windows.get? idx with
      | none => s1
      | some w2 =>
        -- Remove viewport
        let w3 : Window := { w2 with viewport := none }
        let s2 : WMState := { s1 with windows := s1.windows.set idx w3 }
        -- Invalidate the window (area)
        let s3 := window_invalidate s2 w3
        -- Remove window from list and reshift all windows
        { s3 with windows := s3.windows.take idx ++ s3.windows.drop (idx + 1) }

/-- Source `window_move_position`. -/
def window_move_position (s : WMState) (i : Nat) (dx dy : Int) : WMState :=
  if dx = 0 ∧ dy = 0 then s
  else
    match s.windows.get? i with
    | none => s
    | some w =>
      -- Invalidate old region
      let s1 := window_invalidate s w
      -- Translate window and viewport
      let w2 : Window :=
        { w with
          x := w.x + dx
          y := w.y + dy
          viewport := w.viewport.map (fun v => { v with x := v.x + dx, y := v.y + dy }) }
      let s2 : WMState := { s1 with windows := s1.windows.set i w2 }
      -- Invalidate new region
      window_invalidate s2 w2

/-- The scan of `window_get_scroll_widget`: walk the widget table up to the
`WWT_LAST` terminator for the `scrollIndex`-th `WWT_SCROLL` widget. -/
def scroll_widget_scan : List Widget → Nat → Option Widget
  | [], _ => Option.none
  | wd :: rest, k =>
    if wd.type = WidgetType.last then Option.none
    else if wd.type ≠ WidgetType.scroll then scroll_widget_scan rest k
    else if k = 0 then some wd
    else scroll_widget_scan rest (k - 1)

/-- Source `window_get_scroll_widget`. -/
def window_get_scroll_widget (w : Window) (scrollIndex : Nat) : Option Widget :=
  scroll_widget_scan w.widgets scrollIndex

/-- Source `window_scroll_wheel_input`: clamp-add the wheel delta into the offset of
the scrollbar that is visible.  The trailing `widget_scroll_update_thumbs`
and `widget_invalidate` calls recompute the cached thumb extents and mark
dirty blocks, neither of which is part of the modelled scroll state.  A
`scrollIndex` with no matching scroll widget or scroll slot dereferences a
null pointer in the source; the model returns the window unchanged there. -/
def window_scroll_wheel_input (w : Window) (scrollIndex : Nat) (wheel : Int) : Window :=
  match w.scrolls.get? scrollIndex, window_get_scroll_widget w scrollIndex with
  | some scroll, some widget =>
    let scroll2 :=
      if scroll.v_visible then
        let size0 := widget.bottom - widget.top - 1
        let size1 := if scroll.h_visible then size0 - 11 else size0
        let size := max 0 (scroll.v_bottom - size1)
        { scroll with v_top := min (max 0 (scroll.v_top + wheel)) size }
      else
        let size0 := widget.right - widget.left - 1
        let size1 := if scroll.v_visible then size0 - 11 else size0
        let size := max 0 (scroll.h_right - size1)
        { scroll with h_left := min (max 0 (scroll.h_left + wheel)) size }
    { w with scrolls := w.scrolls.set scrollIndex scroll2 }
  | _, _ => w

/-- Whether a widget's screen bounds contain the point, exactly as tested by
`window_find_widget_from_point` (inclusive on all four edges). -/
def widget_contains (w : Window) (wd : Widget) (x y : Int) : Bool :=
  decide (x ≥ w.x + wd.left) && decide (x ≤ w.x + wd.right) &&
  decide (y ≥ w.y + wd.top) && decide (y ≤ w.y + wd.bottom)

/-- The scan loop of `window_find_widget_from_point`: walk the table up to
the terminator, remembering the index of the last non-empty widget whose
bounds contain the point. -/
def find_widget_loop (w : Window) (x y : Int) : List Widget → Int → Int → Int
  | [], _, best => best
  | wd :: rest, i, best =>
    if wd.type = WidgetType.last then best
    else if wd.type ≠ WidgetType.empty ∧ widget_contains w wd x y then
      find_widget_loop w x y rest (i + 1) i
    else
      find_widget_loop w x y rest (i + 1) best

/-- Source `window_find_widget_from_point`.  The window's invalidate event is
dispatched first (layouts may be computed lazily there), modelled by the
`onInvalidate` transformer; the scan then runs over the updated window. -/
def window_find_widget_from_point (onInvalidate : Window → Window) (w0 : Window)
    (x y : Int) : Int :=
  -- Invalidate the window
  let w := onInvalidate w0
  -- Find the widget at point x, y
  let widget_index := find_widget_loop w x y w.widgets 0 (-1)
  -- Return next widget if a dropdown
  if widget_index ≠ -1 then
    match w.widgets.get? widget_index.toNat with
    | some wd => if wd.type = WidgetType.dropdown then widget_index + 1 else widget_index
    | none => widget_index
  else widget_index

/-- The indices (within the widget table, before the `WWT_LAST` terminator)
of the non-empty widgets whose bounds contain the point: the candidates of
`window_find_widget_from_point`'s scan. -/
def hitIndices (w : Window) (x y : Int) : List Widget → List Nat
  | [] => []
  | wd :: rest =>
    if wd.type = WidgetType.last then []
    else if wd.type ≠ WidgetType.empty ∧ widget_contains w wd x y then
      0 :: (hitIndices w x y rest).map (· + 1)
    else
      (hitIndices w x y rest).map (· + 1)

/-- The scan loop of `window_close_by_class`: restart from the list head
after every removal, since compaction invalidates the pointer.  The loop is
not bounded in the source (a close handler may reopen windows), so the model
carries explicit fuel; with no-op handlers any fuel of at least
`windows.length + 1` reaches the fixpoint. -/
def close_by_class_loop (h : Handler) (cls : Int) : Nat → WMState → Nat → WMState
  | 0, s, _ => s
  | fuel + 1, s, i =>
    match s.windows.get? i with
    | none => s
    | some w =>
      if w.classification = cls then
        close_by_class_loop h cls fuel (window_close h s (some w)) 0
      else
        close_by_class_loop h cls fuel s (i + 1)

/-- Source `window_close_by_class`. -/
def window_close_by_class (h : Handler) (fuel : Nat) (s : WMState) (cls : Int) : WMState :=
  close_by_class_loop h cls fuel s 0

/-- The backward pointer loop shared by `window_close_all`,
`window_close_all_except_flags` and `window_close_top`: visit array slots
from `gWindowNextSlot - 1` down to the list base, closing the window in the
current slot when `shouldClose` holds.  `n` is one past the highest slot
still to visit. -/
def close_down_loop (h : Handler) (shouldClose : Window → Bool) : Nat → WMState → WMState
  | 0, s => s
  | n + 1, s =>
    let s2 :=
      match s.windows.get? n with
      | some w => if shouldClose w then window_close h s (some w) else s
      | none => s
    close_down_loop h shouldClose n s2

/-- Source `window_close_all`.  (The `gWindowNextSlot == nullptr` guard handles the
never-initialised process state, which has no counterpart in the model.) -/
def window_close_all (h : Handler) (fuel : Nat) (s : WMState) : WMState :=
  let s1 := window_close_by_class h fuel s WC_DROPDOWN
  close_down_loop h (fun w => !w.sticky) s1.windows.length s1

/-- Source `window_close_all_except_flags`: close every window holding none of the
flags in `mask`. -/
def window_close_all_except_flags (h : Handler) (s : WMState) (mask : WFlags) : WMState :=
  close_down_loop h (fun w => !(w.flags.meets mask)) s.windows.length s

/-- The forward scan of `window_close_all_except_class`.  On a close the
source assigns the pointer back to the list head, but the `for` loop's
increment then runs, so scanning resumes at slot 1 (not slot 0). -/
def close_except_class_loop (h : Handler) (cls : Int) : Nat → WMState → Nat → WMState
  | 0, s, _ => s
  | fuel + 1, s, i =>
    match s.windows.get? i with
    | none => s
    | some w =>
      if w.classification ≠ cls ∧ ¬w.sticky then
        close_except_class_loop h cls fuel (window_close h s (some w)) 1
      else
        close_except_class_loop h cls fuel s (i + 1)

/-- Source `window_close_all_except_class`. -/
def window_close_all_except_class (h : Handler) (fuel : Nat) (s : WMState) (cls : Int) :
    WMState :=
  let s1 := window_close_by_class h fuel s WC_DROPDOWN
  close_except_class_loop h cls fuel s1 0

/-- The top-down scan of `window_close_top`: close the front-most window not
flagged stick-to-back/front, then stop. -/
def close_top_loop (h : Handler) : Nat → WMState → WMState
  | 0, s => s
  | n + 1, s =>
    match s.windows.get? n with
    | some w => if !w.sticky then window_close h s (some w) else close_top_loop h n s
    | none => close_top_loop h n s

/-- Source `window_close_top`.  `scenarioEditor` models
`gScreenFlags & SCREEN_FLAGS_SCENARIO_EDITOR`, `stepLandscape` models
`gS6Info.editor_step == EDITOR_STEP_LANDSCAPE_EDITOR`. -/
def window_close_top (h : Handler) (fuel : Nat) (scenarioEditor stepLandscape : Bool)
    (s : WMState) : WMState :=
  let s1 := window_close_by_class h fuel s WC_DROPDOWN
  if scenarioEditor ∧ ¬stepLandscape then s1
  else close_top_loop h s1.windows.length s1

/-- One pass of `window_close_surplus`'s eviction loop: find the first
window carrying none of the stick-to-back / stick-to-front / no-auto-close
flags and close it, unless it matches the avoided classification (the
`continue`, which skips the iteration without closing anything).  When no
such window exists the source walks its pointer past the end of the list
(undefined behaviour); the model closes nothing there. -/
def close_surplus_step (h : Handler) (avoid : Int) (s : WMState) : WMState :=
  match s.windows.find? (fun w => !w.evictionProtected) with
  | none => s
  | some w =>
    if avoid ≠ -1 ∧ w.classification = avoid then s
    else window_close h s (some w)

/-- Iterate a state transformer a fixed number of times. -/
def iterSteps (f : WMState → WMState) : Nat → WMState → WMState
  | 0, s => s
  | n + 1, s => iterSteps f n (f s)

/-- Source `window_close_surplus`.  `Modelled from the spec:` the
`WINDOW_LIMIT_MAX` and `WINDOW_LIMIT_RESERVED` constants come from the
header outside the excerpt, so they are parameters here; the spec's concrete
scenario fixes a capacity of 4 with 2 reserved slots.  The open-window count
scans at most `WINDOW_LIMIT_MAX` slots, so it is `min length limitMax`. -/
def window_close_surplus (h : Handler) (limitMax reservedSlots : Int) (s : WMState)
    (cap : Int) (avoid : Int) : WMState :=
  let count : Int := min (s.windows.length : Int) limitMax
  let diff := count - reservedSlots - cap
  iterSteps (close_surplus_step h avoid) diff.toNat s

/-- The helper `Math::Clamp(low, x, high)` from the core utility header (outside the
excerpt): clamp `x` into `[low, high]`, as the spec describes. -/
def clampInt (lo x hi : Int) : Int := min (max lo x) hi

/-- Source `window_set_window_limit`.  (`config_save_default` persists the config
externally and has no modelled effect.)  `Modelled from the spec:`
`WINDOW_LIMIT_MIN` / `WINDOW_LIMIT_MAX` / `WINDOW_LIMIT_RESERVED` are
parameters, as for `window_close_surplus`. -/
def window_set_window_limit (h : Handler) (limitMin limitMax reservedSlots : Int)
    (s : WMState) (value : Int) : WMState :=
  let prev := s.windowLimit
  let val := clampInt limitMin value limitMax
  let s1 : WMState := { s with windowLimit := val }
  if val < prev then window_close_surplus h limitMax reservedSlots s1 val WC_OPTIONS
  else s1

/-- Swap the array entries at slots `i` and `i + 1` (the three-assignment
swap inside `window_bring_to_front`'s rotation loop). -/
def swapAdj (ws : List Window) (i : Nat) : List Window :=
  match ws.get? i, ws.get? (i + 1) with
  | some a, some b => (ws.set i b).set (i + 1) a
  | _, _ => ws

/-- The rotation loop of `window_bring_to_front`: swap the moving window one
slot towards the front, `k` times (`k = v - i` when the loop runs from slot
`i` up to slot `v`). -/
def bubble_up : List Window → Nat → Nat → List Window
  | ws, _, 0 => ws
  | ws, i, k + 1 => bubble_up (swapAdj ws i) (i + 1) k

/-- The downward scan of `window_bring_to_front`: the highest slot, below
`n`, whose window is not flagged stick-to-front. -/
def find_last_non_stf (ws : List Window) : Nat → Option Nat
  | 0 => Option.none
  | k + 1 =>
    match ws.get? k with
    | some w => if !w.flags.stick_to_front then some k else find_last_non_stf ws k
    | none => find_last_non_stf ws k

/-- Source `window_bring_to_front`, acting on the window in slot `i`; returns the
new state together with the slot the window ends up in (the returned
pointer). -/
def window_bring_to_front (s : WMState) (i : Nat) : WMState × Nat :=
  match s.windows.get? i with
  | none => (s, i)
  | some w =>
    if w.sticky then (s, i)
    else
      let step1 : WMState × Nat :=
        match find_last_non_stf s.windows s.windows.length with
        | none => (s, i)
        | some v =>
          if i ≠ v then
            let ws2 := bubble_up s.windows i (v - i)
            let s2 : WMState :=
              match ws2.get? v with
              | some wv => window_invalidate { s with windows := ws2 } wv
              | none => { s with windows := ws2 }
            (s2, v)
          else (s, i)
      match step1.1.windows.get? step1.2 with
      | none => step1
      | some w1 =>
        if w1.x + w1.width < 20 then
          let d := 20 - w1.x
          let w2 : Window :=
            { w1 with
              x := w1.x + d
              viewport := w1.viewport.map (fun vp => { vp with x := vp.x + d }) }
          let s3 : WMState := { step1.1 with windows := step1.1.windows.set step1.2 w2 }
          (window_invalidate s3 w2, step1.2)
        else step1

/-- One iteration of `window_zoom_set`'s zoom-in loop: decrement the zoom
level, re-centre the saved view by a quarter of the (pre-halving) view
extents, then halve the view extents.  `sint32` division truncates toward
zero, hence `Int.tdiv`. -/
def zoom_in_step (p : Window × Viewport) : Window × Viewport :=
  let v1 : Viewport := { p.2 with zoom := p.2.zoom - 1 }
  let w1 : Window :=
    { p.1 with
      saved_view_x := p.1.saved_view_x + Int.tdiv v1.view_width 4
      saved_view_y := p.1.saved_view_y + Int.tdiv v1.view_height 4 }
  (w1, { v1 with view_width := Int.tdiv v1.view_width 2
                 view_height := Int.tdiv v1.view_height 2 })

/-- One iteration of `window_zoom_set`'s zoom-out loop. -/
def zoom_out_step (p : Window × Viewport) : Window × Viewport :=
  let v1 : Viewport := { p.2 with zoom := p.2.zoom + 1 }
  let w1 : Window :=
    { p.1 with
      saved_view_x := p.1.saved_view_x - Int.tdiv v1.view_width 2
      saved_view_y := p.1.saved_view_y - Int.tdiv v1.view_height 2 }
  (w1, { v1 with view_width := v1.view_width * 2
                 view_height := v1.view_height * 2 })

/-- Run a zoom step `k` times (the `while` loops run one step per level). -/
def zoom_steps (step : Window × Viewport → Window × Viewport) :
    Nat → Window × Viewport → Window × Viewport
  | 0, p => p
  | k + 1, p => zoom_steps step k (step p)

/-- Source `window_zoom_set`, acting on the window in slot `i`; returns the new
state and the slot the window ends up in after the bring-to-front.
`MAX_ZOOM_LEVEL` (header, outside the excerpt) is the `maxZoom` parameter;
`zoomToCursorCfg` models `gConfigGeneral.zoom_to_cursor`.  The
cursor-anchored re-centering reads the platform cursor and the map
(external collaborators), so it is passed in as the `capture` / `recentre`
pair, only consulted when `zoomToCursorCfg && atCursor`.  The source
dereferences a null viewport unconditionally (UB); the model returns the
state unchanged there.  The trailing `window_invalidate(w)` in the source
still uses the pointer to slot `i`, which after the rotation may hold a
different window. -/
def window_zoom_set (maxZoom : Int) (zoomToCursorCfg : Bool)
    (capture : Window → Viewport → Int × Int × Int × Int)
    (recentre : Window → Viewport → Int × Int × Int × Int → Window)
    (s : WMState) (i : Nat) (zoomLevel : Int) (atCursor : Bool) : WMState × Nat :=
  match s.windows.get? i with
  | none => (s, i)
  | some w =>
    match w.viewport with
    | none => (s, i)
    | some v =>
      let zl := clampInt 0 zoomLevel maxZoom
      if v.zoom = zl then (s, i)
      else
        -- Zooming to cursor? Remember where we're pointing at the moment.
        let captured :=
          if zoomToCursorCfg ∧ atCursor then some (capture w v) else Option.none
        -- Zoom in
        let p1 := zoom_steps zoom_in_step (v.zoom - zl).toNat (w, v)
        -- Zoom out
        let p2 := zoom_steps zoom_out_step (zl - p1.2.zoom).toNat p1
        -- Zooming to cursor? Centre around the tile we were hovering over.
        let w3 :=
          match captured with
          | some c => recentre p2.1 p2.2 c
          | none => p2.1
        let w4 : Window := { w3 with viewport := some p2.2 }
        let s1 : WMState := { s with windows := s.windows.set i w4 }
        let step2 := window_bring_to_front s1 i
        match step2.1.windows.get? i with
        | some wi => (window_invalidate step2.1 wi, step2.2)
        | none => step2

/-- The 17 anchor multipliers of `window_scroll_locations`, as exact
numerators in eighths: the float table holds only multiples of 0.125. -/
def scrollLocations : List (Int × Int) :=
  [(4, 4), (6, 4), (2, 4), (4, 6), (4, 2), (6, 6), (6, 2), (2, 6), (2, 2),
   (1, 4), (7, 4), (4, 1), (4, 7), (7, 1), (7, 7), (1, 7), (1, 1)]

/-- Entry `i` of the anchor table (only consulted for `i < 17`). -/
def scrollLoc (i : Nat) : Int × Int :=
  (scrollLocations.get? i).getD (4, 4)

/-- The cast `(sint16)(size * f)` for a table multiplier `f = num / 8`: the float
product is exact at screen magnitudes and the cast truncates toward zero. -/
def mulEighth (size num : Int) : Int :=
  Int.tdiv (size * num) 8

/-- Whether a single window covers the candidate anchor point, with the
10-pixel margin the source applies on every side. -/
def anchorCovered (w2 : Window) (x2 y2 : Int) : Bool :=
  decide (x2 ≥ w2.x - 10) && decide (x2 ≤ w2.width + (w2.x - 10) + 20) &&
  decide (y2 ≥ w2.y - 10) && decide (y2 ≤ w2.height + (w2.y - 10) + 20)

/-- The inner scan of `window_scroll_to_location`: the anchor is obstructed
when some window after this one in z-order covers it. -/
def anchor_obstructed (above : List Window) (x2 y2 : Int) : Bool :=
  above.any (fun w2 => anchorCovered w2 x2 y2)

/-- Candidate anchor `i` in screen coordinates. -/
def anchorPoint (v : Viewport) (i : Nat) : Int × Int :=
  (v.x + mulEighth v.width (scrollLoc i).1, v.y + mulEighth v.height (scrollLoc i).2)

/-- The anchor search loop: try anchors in table order; once the index
reaches 17 the source resets it to 0 and stops, so an all-obstructed search
falls back to anchor 0. -/
def anchor_search (above : List Window) (v : Viewport) : Nat → Nat → Nat
  | 0, _ => 0
  | fuel + 1, i =>
    let p := anchorPoint v i
    if !anchor_obstructed above p.1 p.2 then i
    else anchor_search above v fuel (i + 1)

/-- Source `window_scroll_to_location`.  `tileHeight` models `tile_element_height`
and `coord2d` models `coordinate_3d_to_2d` under the current global rotation
(both external to the excerpt); `titleDemo` models
`gScreenFlags & SCREEN_FLAGS_TITLE_DEMO`. -/
def window_scroll_to_location (tileHeight : Int → Int → Int)
    (coord2d : Int → Int → Int → Int × Int) (titleDemo : Bool)
    (s : WMState) (i : Nat) (x y z : Int) : WMState :=
  match s.windows.get? i with
  | none => s
  | some w0 =>
    -- window_unfollow_sprite
    let w : Window :=
      { w0 with viewport_smart_follow_sprite := Option.none
                viewport_target_sprite := Option.none }
    match w.viewport with
    | none => { s with windows := s.windows.set i w }
    | some v =>
      -- toggle the underground flag (viewport flag bit 0) by target height
      let wantUnder := decide (z < tileHeight x y - 16)
      let vFlag : Viewport := { v with underground := wantUnder }
      let w2 : Window := { w with viewport := some vFlag }
      let s2 : WMState :=
        let sBase : WMState := { s with windows := s.windows.set i w2 }
        if v.underground ≠ wantUnder then window_invalidate sBase w2 else sBase
      let mapc := coord2d x y z
      let anchorIdx :=
        if titleDemo then 0
        else anchor_search (s2.windows.drop (i + 1)) vFlag 17 0
      -- rct2: 0x006E7C76
      if w2.viewport_target_sprite = Option.none then
        if !w2.flags.no_scrolling then
          let w3 : Window :=
            { w2 with
              saved_view_x := mapc.1 - mulEighth vFlag.view_width (scrollLoc anchorIdx).1
              saved_view_y := mapc.2 - mulEighth vFlag.view_height (scrollLoc anchorIdx).2
              flags := { w2.flags with scrolling_to_location := true } }
          { s2 with windows := s2.windows.set i w3 }
        else s2
      else s2

/-- A render-target descriptor (`rct_drawpixelinfo`), reduced to the screen
rectangle it addresses: the bit-pointer / pitch arithmetic of
`window_draw_single` implements exactly the clipping of this rectangle. -/
structure DPI where
  x : Int
  y : Int
  width : Int
  height : Int
  deriving DecidableEq, Repr

/-- One invocation of a window's paint handler: the slot of the painted
window and the clipped descriptor rectangle it receives. -/
structure PaintCall where
  painted : Nat
  left : Int
  top : Int
  right : Int
  bottom : Int
  deriving DecidableEq, Repr

/-- Whether window `o` fully contains window `w`'s bounds (the covered test
of `window_is_visible`). -/
def fullyCovers (o w : Window) : Bool :=
  decide (o.x ≤ w.x) && decide (o.y ≤ w.y) &&
  decide (o.x + o.width ≥ w.x + w.width) && decide (o.y + o.height ≥ w.y + w.height)

/-- Source `window_is_visible`.  The tri-state `visibility` field only memoizes
this computation within one redraw pass over an unchanged list (it is reset
to unknown at pass start by `window_reset_visibilities`), so the model
computes it directly. -/
def window_is_visible (ws : List Window) (i : Nat) : Bool :=
  match ws.get? i with
  | none => false
  | some w =>
    if w.viewport.isNone || decide (w.classification = WC_MAIN_WINDOW) then true
    else !(ws.drop (i + 1)).any (fun o => fullyCovers o w)

/-- The occluder test of `window_draw_split`: a window above overlapping the
rectangle and not transparent. -/
def overlapsOpaque (l t r b : Int) (tw : Window) : Bool :=
  decide (tw.x < r) && decide (tw.y < b) &&
  decide (tw.x + tw.width > l) && decide (tw.y + tw.height > t) &&
  !tw.flags.transparent

/-- The scan of `window_draw_split`: the first window above this one in
z-order that overlaps the rectangle and is not transparent. -/
def findOccluder (above : List Window) (l t r b : Int) : Option Window :=
  above.find? (overlapsOpaque l t r b)

/-- Source `window_draw_single`: crop a copy of the descriptor to the rectangle and
invoke the paint handler on it, unless the cropped descriptor is empty.
(The `window_event_invalidate_call` and the text-colour globals set just
before painting do not affect the emitted region.) -/
def window_draw_single (dpi : DPI) (vIdx : Nat) (l t r b : Int) : List PaintCall :=
  let L := max l dpi.x
  let R := min r (dpi.x + dpi.width)
  let T := max t dpi.y
  let B := min b (dpi.y + dpi.height)
  if L < R ∧ T < B then [⟨vIdx, L, T, R, B⟩] else []

/-- One candidate of `window_draw`'s paint loop: window `vIdx` paints into
the region when it is the target window or transparent, and visible. -/
def paint_one (dpi : DPI) (ws : List Window) (i vIdx : Nat) (l t r b : Int) :
    List PaintCall :=
  match ws.get? vIdx with
  | none => []
  | some v =>
    if (vIdx = i ∨ v.flags.transparent) ∧ window_is_visible ws vIdx then
      window_draw_single dpi vIdx l t r b
    else []

/-- The paint loop of `window_draw`: every window from the target up to the
front that is the target itself or transparent, and visible, paints the
clamped region. -/
def paint_loop (dpi : DPI) (ws : List Window) (i : Nat) (l t r b : Int) :
    List PaintCall :=
  (((List.range ws.length).drop i).map (fun vIdx => paint_one dpi ws i vIdx l t r b)).flatten

/-- Source `window_draw` together with `window_draw_split`, as one recursion on the
window in slot `i`.  The source recursion terminates because every split
strictly shrinks the rectangle; the model carries explicit fuel so that the
definition stays structurally recursive, and the claims quantify over it. -/
def window_draw (dpi : DPI) (ws : List Window) :
    Nat → Nat → Int → Int → Int → Int → List PaintCall
  | 0, _, _, _, _, _ => []
  | fuel + 1, i, l, t, r, b =>
    if !window_is_visible ws i then []
    else
      -- Split window into only the regions that require drawing
      match findOccluder (ws.drop (i + 1)) l t r b with
      | some tw =>
        if tw.x > l then
          window_draw dpi ws fuel i l t tw.x b ++ window_draw dpi ws fuel i tw.x t r b
        else if tw.x + tw.width < r then
          window_draw dpi ws fuel i l t (tw.x + tw.width) b ++
            window_draw dpi ws fuel i (tw.x + tw.width) t r b
        else if tw.y > t then
          window_draw dpi ws fuel i l t r tw.y ++ window_draw dpi ws fuel i l tw.y r b
        else if tw.y + tw.height < b then
          window_draw dpi ws fuel i l t r (tw.y + tw.height) ++
            window_draw dpi ws fuel i l (tw.y + tw.height) r b
        else []
      | none =>
        match ws.get? i with
        | none => []
        | some w =>
          -- Clamp region
          let L := max l w.x
          let T := max t w.y
          let R := min r (w.x + w.width)
          let B := min b (w.y + w.height)
          if L ≥ R ∨ T ≥ B then []
          else paint_loop dpi ws i L T R B

/-- Disjointness of two half-open screen rectangles. -/
def rectsDisjoint (l1 t1 r1 b1 l2 t2 r2 b2 : Int) : Prop :=
  r1 ≤ l2 ∨ r2 ≤ l1 ∨ b1 ≤ t2 ∨ b2 ≤ t1

instance rectsDisjoint.instDecidable (l1 t1 r1 b1 l2 t2 r2 b2 : Int) :
    Decidable (rectsDisjoint l1 t1 r1 b1 l2 t2 r2 b2) := by
  unfold rectsDisjoint
  infer_instance

/-- Classification + number keys are pairwise distinct: the documented
window-list invariant (the pair is a unique key while a window exists). -/
def uniqueKeys (ws : List Window) : Prop :=
  (ws.map (fun w => (w.classification, w.number))).Nodup

/-! Concrete instances used by witnesses and counterexamples. -/

/-- A plain window with a viewport, for concrete instantiations. -/
def probeViewport : Viewport := ⟨3, 4, 50, 60, 7, 8, 320, 240, 1, false⟩

/-- A plain window holding `probeViewport`. -/
def probeWindow : Window :=
  ⟨21, 5, 10, 12, 100, 80, WFlags.none, some probeViewport, [], [], 0, 0,
   Option.none, Option.none⟩

/-- A one-window state around `probeWindow`. -/
def probeState : WMState := ⟨[probeWindow], [], 8⟩

/-- A scroll area with a visible vertical scrollbar. -/
def probeScrollArea : ScrollArea := ⟨false, true, 0, 0, 5, 500⟩

/-- A window with one scroll widget owning `probeScrollArea`. -/
def probeScrollWin : Window :=
  ⟨22, 0, 0, 0, 100, 100, WFlags.none, Option.none,
   [⟨WidgetType.scroll, 0, 99, 0, 99⟩, ⟨WidgetType.last, 0, 0, 0, 0⟩],
   [probeScrollArea], 0, 0, Option.none, Option.none⟩

/-- A featureless window of the given classification (number 0). -/
def plainWin (cls : Int) : Window :=
  ⟨cls, 0, 0, 0, 10, 10, WFlags.none, Option.none, [], [], 0, 0, Option.none, Option.none⟩

/-- The spec's `setWindowLimit` scenario: three unprotected windows open,
stored limit 2. -/
def c3state : WMState := ⟨[plainWin 1, plainWin 2, plainWin 3], [], 2⟩

/-- A stick-to-front window of a non-dropdown classification. -/
def stickyWin : Window :=
  ⟨5, 0, 0, 0, 10, 10, { WFlags.none with stick_to_front := true }, Option.none,
   [], [], 0, 0, Option.none, Option.none⟩

/-- A one-window state holding only `stickyWin`. -/
def stickyState : WMState := ⟨[stickyWin], [], 8⟩

/-- A three-window state for bring-to-front: two plain windows below a
stick-to-front window. -/
def c5state : WMState := ⟨[plainWin 7, plainWin 8, stickyWin], [], 8⟩

/-- A viewport with odd view extents at zoom level 1. -/
def oddViewport : Viewport := ⟨0, 0, 50, 50, 0, 0, 101, 101, 1, false⟩

/-- A window owning `oddViewport`, positioned clear of the left edge. -/
def oddZoomWin : Window :=
  ⟨12, 0, 100, 0, 50, 50, WFlags.none, some oddViewport, [], [], 0, 0,
   Option.none, Option.none⟩

/-- A one-window state holding `oddZoomWin`. -/
def oddZoomState : WMState := ⟨[oddZoomWin], [], 8⟩

/-- A viewport with even view extents at zoom level 1. -/
def evenViewport : Viewport := ⟨0, 0, 50, 50, 0, 0, 96, 64, 1, false⟩

/-- A window owning `evenViewport`. -/
def evenZoomWin : Window :=
  ⟨12, 0, 100, 0, 50, 50, WFlags.none, some evenViewport, [], [], 0, 0,
   Option.none, Option.none⟩

/-- A one-window state holding `evenZoomWin`. -/
def evenZoomState : WMState := ⟨[evenZoomWin], [], 8⟩

/-- A trivial cursor-capture collaborator (never consulted when
cursor-anchored zooming is not requested). -/
def capNone : Window → Viewport → Int × Int × Int × Int := fun _ _ => (0, 0, 0, 0)

/-- A trivial cursor-recentre collaborator. -/
def recNone : Window → Viewport → Int × Int × Int × Int → Window := fun w _ _ => w

/-- A window with a small widget table: frame, dropdown, button, a
full-size empty widget, terminator. -/
def c7window : Window :=
  ⟨15, 0, 0, 0, 100, 100, WFlags.none, Option.none,
   [⟨WidgetType.frame, 0, 99, 0, 99⟩, ⟨WidgetType.dropdown, 10, 30, 10, 20⟩,
    ⟨WidgetType.button, 31, 40, 10, 20⟩, ⟨WidgetType.empty, 0, 99, 0, 99⟩,
    ⟨WidgetType.last, 0, 0, 0, 0⟩],
   [], 0, 0, Option.none, Option.none⟩

/-- A viewport for the scroll-to-location scenario. -/
def c8viewport : Viewport := ⟨0, 0, 160, 160, 0, 0, 320, 320, 1, false⟩

/-- The scrolled window of the scroll-to-location scenario. -/
def c8win : Window :=
  ⟨13, 0, 0, 0, 160, 160, WFlags.none, some c8viewport, [], [], 7, 7,
   Option.none, Option.none⟩

/-- A window large enough to obscure every candidate anchor of `c8win`. -/
def c8big : Window :=
  ⟨14, 0, -1000, -1000, 3000, 3000, WFlags.none, Option.none, [], [], 0, 0,
   Option.none, Option.none⟩

/-- The scroll-to-location scenario state: `c8big` in front of `c8win`. -/
def c8state : WMState := ⟨[c8win, c8big], [], 8⟩

/-- A height collaborator for the scenario. -/
def c8height : Int → Int → Int := fun _ _ => 0

/-- A 3d-to-2d projection collaborator for the scenario. -/
def c8coord : Int → Int → Int → Int × Int := fun a b c => (a + b + c, a - b)

/-- Window A of the spec's draw scenario: at (0,0), 100 by 100. -/
def scenA : Window :=
  ⟨1, 0, 0, 0, 100, 100, WFlags.none, Option.none, [], [], 0, 0,
   Option.none, Option.none⟩

/-- Window B of the spec's draw scenario: opaque, at (50,50), 100 by 100,
opened after A. -/
def scenB : Window :=
  ⟨2, 0, 50, 50, 100, 100, WFlags.none, Option.none, [], [], 0, 0,
   Option.none, Option.none⟩

/-- A full-screen render target for the draw scenario. -/
def scenDPI : DPI := ⟨0, 0, 640, 480⟩

/-- Iterated truncating halving, the effect of `k` zoom-in steps on a view
extent. -/
def halveIter : Nat → Int → Int
  | 0, a => a
  | k + 1, a => halveIter k (Int.tdiv a 2)

/-! ### List helper lemmas -/

theorem wm_get?_set_self {α : Type _} (l : List α) (i : Nat) (a : α) (h : i < l.length) :
    (l.set i a).get? i = some a := by
  rw [List.get?_eq_getElem?]
  exact List.getElem?_set_self h

theorem wm_get?_set_ne {α : Type _} (l : List α) (i j : Nat) (a : α) (h : i ≠ j) :
    (l.set i a).get? j = l.get? j := by
  rw [List.get?_eq_getElem?, List.get?_eq_getElem?]
  exact List.getElem?_set_ne h

theorem wm_get?_lt_length {α : Type _} {l : List α} {i : Nat} {a : α}
    (h : l.get? i = some a) : i < l.length := by
  rw [List.get?_eq_getElem?] at h
  exact (List.getElem?_eq_some.mp h).1

theorem wm_take_set_self {α : Type _} (l : List α) (i : Nat) (a : α) :
    (l.set i a).take i = l.take i := by
  induction l generalizing i with
  | nil => simp
  | cons x xs ih =>
    cases i with
    | zero => simp
    | succ n => simpa using ih n

theorem wm_drop_set_succ {α : Type _} (l : List α) (i : Nat) (a : α) :
    (l.set i a).drop (i + 1) = l.drop (i + 1) := by
  rw [List.drop_set, if_pos (Nat.lt_succ_self i)]

/-! ### C10: window_move_position -/

/-- C10: `window_move_position(w, 0, 0)` is a complete no-op (no state
change, no invalidation); for a non-zero delta it changes exactly the
window's `x`/`y` by the delta, moves an owned viewport's `x`/`y` by the same
delta, and leaves the window's other fields (width, height, flags, widgets)
and every other window in the list untouched. -/
theorem c10_window_move_position_spec (s : WMState) (i : Nat) (dx dy : Int) (w : Window)
    (hw : s.windows.get? i = some w) :
    (dx = 0 ∧ dy = 0 → window_move_position s i dx dy = s) ∧
    (¬(dx = 0 ∧ dy = 0) →
      (window_move_position s i dx dy).windows.get? i =
        some { w with
               x := w.x + dx
               y := w.y + dy
               viewport := w.viewport.map (fun v => { v with x := v.x + dx, y := v.y + dy }) } ∧
      (∀ j, j ≠ i → (window_move_position s i dx dy).windows.get? j = s.windows.get? j)) := by
  have hlen : i < s.windows.length := wm_get?_lt_length hw
  constructor
  · intro h
    simp [window_move_position, h]
  · intro h
    rw [window_move_position, if_neg h, hw]
    constructor
    · exact wm_get?_set_self _ _ _ hlen
    · intro j hj
      exact wm_get?_set_ne _ _ _ _ (fun hij => hj hij.symm)

/-- Witness for C10 at a concrete window and delta. -/
theorem c10_witness :
    probeState.windows.get? 0 = some probeWindow ∧
    ¬((3 : Int) = 0 ∧ (-2 : Int) = 0) ∧
    (window_move_position probeState 0 3 (-2)).windows.get? 0 =
      some { probeWindow with
             x := probeWindow.x + 3
             y := probeWindow.y + (-2)
             viewport := probeWindow.viewport.map
               (fun v => { v with x := v.x + 3, y := v.y + (-2) }) } :=
  ⟨by decide, by decide,
    ((c10_window_move_position_spec probeState 0 3 (-2) probeWindow (by decide)).2
      (by decide)).1⟩

/-! ### C9: window_scroll_wheel_input -/

/-- C9: after `window_scroll_wheel_input`, the updated scroll offset
(`v_top` when the vertical scrollbar is visible, `h_left` otherwise) lies in
`[0, max 0 (content extent - visible widget size)]`, for every starting
offset and wheel delta. -/
theorem c9_window_scroll_wheel_input_bounds (w : Window) (scrollIndex : Nat) (wheel : Int)
    (scroll : ScrollArea) (widget : Widget)
    (hs : w.scrolls.get? scrollIndex = some scroll)
    (hw : window_get_scroll_widget w scrollIndex = some widget) :
    ∃ scroll2,
      (window_scroll_wheel_input w scrollIndex wheel).scrolls.get? scrollIndex = some scroll2 ∧
      (scroll.v_visible = true →
        0 ≤ scroll2.v_top ∧
        scroll2.v_top ≤
          max 0 (scroll.v_bottom -
            (widget.bottom - widget.top - 1 - (if scroll.h_visible then 11 else 0)))) ∧
      (scroll.v_visible = false →
        0 ≤ scroll2.h_left ∧
        scroll2.h_left ≤ max 0 (scroll.h_right - (widget.right - widget.left - 1))) := by
  have hlen : scrollIndex < w.scrolls.length := wm_get?_lt_length hs
  rw [window_scroll_wheel_input, hs, hw]
  cases hv : scroll.v_visible with
  | true =>
    cases hh : scroll.h_visible with
    | true =>
      refine ⟨_, wm_get?_set_self _ _ _ hlen, fun _ => ?_, fun hc => by simp [hv] at hc⟩
      constructor <;> simp [hv, hh] <;> omega
    | false =>
      refine ⟨_, wm_get?_set_self _ _ _ hlen, fun _ => ?_, fun hc => by simp [hv] at hc⟩
      constructor <;> simp [hv, hh] <;> omega
  | false =>
    refine ⟨_, wm_get?_set_self _ _ _ hlen, fun hc => by simp [hv] at hc, fun _ => ?_⟩
    constructor <;> simp [hv] <;> omega

/-- Witness for C9 at a concrete window and wheel delta. -/
theorem c9_witness :
    probeScrollWin.scrolls.get? 0 = some probeScrollArea ∧
    window_get_scroll_widget probeScrollWin 0 = some ⟨WidgetType.scroll, 0, 99, 0, 99⟩ ∧
    (∃ scroll2,
      (window_scroll_wheel_input probeScrollWin 0 (-100)).scrolls.get? 0 = some scroll2 ∧
      (probeScrollArea.v_visible = true →
        0 ≤ scroll2.v_top ∧
        scroll2.v_top ≤
          max 0 (probeScrollArea.v_bottom -
            ((99 : Int) - 0 - 1 - (if probeScrollArea.h_visible then 11 else 0)))) ∧
      (probeScrollArea.v_visible = false →
        0 ≤ scroll2.h_left ∧
        scroll2.h_left ≤ max 0 (probeScrollArea.h_right - ((99 : Int) - 0 - 1)))) :=
  ⟨by decide, by decide,
    c9_window_scroll_wheel_input_bounds probeScrollWin 0 (-100) probeScrollArea
      ⟨WidgetType.scroll, 0, 99, 0, 99⟩ (by decide) (by decide)⟩

/-! ### C2: window_close -/

/-- C2: `window_close` is a no-op on a null window; otherwise it dispatches
the close event first, re-resolves the record by classification and number,
silently does nothing further when the handler already removed it, and
otherwise removes exactly that record (its screen area invalidated, the
viewport discarded with it), shifting every later entry down one slot so
that one fewer window remains with all other windows' relative order
preserved. -/
theorem c2_window_close_spec (h : Handler) (s : WMState) (w : Window) :
    window_close h s none = s ∧
    (window_find_by_number (h s w).windows w.classification w.number = none →
      window_close h s (some w) = h s w) ∧
    (∀ idx w2,
      window_find_by_number (h s w).windows w.classification w.number = some idx →
      (h s w).windows.get? idx = some w2 →
      (window_close h s (some w)).windows = (h s w).windows.eraseIdx idx ∧
      (window_close h s (some w)).windows.length + 1 = (h s w).windows.length ∧
      (∀ j, j < idx → (window_close h s (some w)).windows.get? j = (h s w).windows.get? j) ∧
      (∀ j, idx ≤ j →
        (window_close h s (some w)).windows.get? j = (h s w).windows.get? (j + 1)) ∧
      (window_close h s (some w)).dirty = (h s w).dirty ++ [windowRect w2] ∧
      (window_close h s (some w)).windowLimit = (h s w).windowLimit) := by
  refine ⟨rfl, ?_, ?_⟩
  · intro hn
    simp only [window_close, hn]
  · intro idx w2 hidx hget
    have hlen : idx < (h s w).windows.length := wm_get?_lt_length hget
    have hres : (window_close h s (some w)).windows =
        (h s w).windows.take idx ++ (h s w).windows.drop (idx + 1) := by
      simp only [window_close, hidx, hget, window_invalidate]
      rw [wm_take_set_self, wm_drop_set_succ]
    have herase : (window_close h s (some w)).windows = (h s w).windows.eraseIdx idx := by
      rw [hres, List.eraseIdx_eq_take_drop_succ]
    have htklen : ((h s w).windows.take idx).length = idx := by
      simp [Nat.le_of_lt hlen]
    refine ⟨herase, ?_, ?_, ?_, ?_, ?_⟩
    · rw [herase, List.length_eraseIdx, if_pos hlen]
      omega
    · intro j hj
      rw [hres, List.get?_append (by omega), List.get?_take hj]
    · intro j hj
      rw [hres, List.get?_append_right (by omega), List.get?_drop]
      congr 1
      omega
    · simp only [window_close, hidx, hget, window_invalidate]
      rfl
    · simp only [window_close, hidx, hget, window_invalidate]

/-- Witness for C2: closing `probeWindow` (no-op handler) removes exactly
its slot. -/
theorem c2_witness :
    window_find_by_number (noHandler probeState probeWindow).windows
      probeWindow.classification probeWindow.number = some 0 ∧
    (noHandler probeState probeWindow).windows.get? 0 = some probeWindow ∧
    (window_close noHandler probeState (some probeWindow)).windows =
      (noHandler probeState probeWindow).windows.eraseIdx 0 :=
  ⟨by decide, by decide,
    ((c2_window_close_spec noHandler probeState probeWindow).2.2 0 probeWindow
      (by decide) (by decide)).1⟩

/-! ### C3: window_set_window_limit / window_close_surplus -/

/-- One surplus-eviction pass over a list of unprotected, non-avoided
windows closes exactly the list head. -/
theorem c3_surplus_step (s : WMState)
    (hall : ∀ w ∈ s.windows, w.evictionProtected = false ∧ w.classification ≠ WC_OPTIONS) :
    (close_surplus_step noHandler WC_OPTIONS s).windows = s.windows.drop 1 ∧
    (close_surplus_step noHandler WC_OPTIONS s).windowLimit = s.windowLimit := by
  cases hws : s.windows with
  | nil => simp [close_surplus_step, hws]
  | cons w ws =>
    have hw := hall w (by rw [hws]; exact List.mem_cons_self w ws)
    have hfind : s.windows.find? (fun w => !w.evictionProtected) = some w := by
      rw [hws]
      exact List.find?_cons_of_pos _ (by simp [hw.1])
    have hnum : window_find_by_number (w :: ws) w.classification w.number = some 0 := by
      simp [window_find_by_number, List.findIdx?_cons]
    simp only [close_surplus_step, hfind]
    rw [if_neg (by simp [hw.2])]
    simp only [window_close, noHandler, hws, hnum, window_invalidate]
    simp [List.drop_set]

/-- Iterating the surplus-eviction pass `n` times over unprotected windows
drops exactly the first `n` windows in list order. -/
theorem c3_surplus_iter (n : Nat) (s : WMState)
    (hall : ∀ w ∈ s.windows, w.evictionProtected = false ∧ w.classification ≠ WC_OPTIONS) :
    (iterSteps (close_surplus_step noHandler WC_OPTIONS) n s).windows = s.windows.drop n ∧
    (iterSteps (close_surplus_step noHandler WC_OPTIONS) n s).windowLimit = s.windowLimit := by
  induction n generalizing s with
  | zero => simp [iterSteps]
  | succ n ih =>
    have hstep := c3_surplus_step s hall
    have hall2 : ∀ w ∈ (close_surplus_step noHandler WC_OPTIONS s).windows,
        w.evictionProtected = false ∧ w.classification ≠ WC_OPTIONS := by
      intro w hwmem
      rw [hstep.1] at hwmem
      exact hall w (List.mem_of_mem_drop hwmem)
    have := ih (close_surplus_step noHandler WC_OPTIONS s) hall2
    rw [iterSteps]
    refine ⟨?_, by rw [this.2, hstep.2]⟩
    rw [this.1, hstep.1, List.drop_drop, Nat.add_comm]

/-- Counterexample for C3: in the spec's scenario (capacity 4, 2 slots
reserved, under either reading of which summand is the open-window cap,
three unprotected windows open, stored limit 2), `window_set_window_limit 1`
evicts no window at all: 3 windows remain, not 1, because
`window_close_surplus` subtracts the reserved-slot count from the open count
before comparing with the cap. -/
theorem c3_counterexample :
    c3state.windows.length = 3 ∧
    (∀ w ∈ c3state.windows, w.evictionProtected = false) ∧
    clampInt 1 1 2 < c3state.windowLimit ∧
    (window_set_window_limit noHandler 1 2 2 c3state 1).windows.length = 3 ∧
    (window_set_window_limit noHandler 1 4 2 c3state 1).windows.length = 3 ∧
    (window_set_window_limit noHandler 1 2 2 c3state 1).windows.length ≠ 1 := by
  decide

/-- C3 (amended): lowering the window limit below the stored one evicts
`max 0 (min openCount limitMax - reservedSlots - newLimit)` windows — not
`openCount - newLimit` of them — each eviction taking the first
non-protected window in list order (here all windows are unprotected and
none carries the caller-avoided `WC_OPTIONS` classification, so the evicted
windows are exactly the first ones); in the spec's scenario (3 open,
2 reserved, new limit 1) this evicts 0 windows and leaves all 3. -/
theorem c3_window_set_window_limit_amended
    (limitMin limitMax reservedSlots : Int) (s : WMState) (value : Int)
    (hall : ∀ w ∈ s.windows, w.evictionProtected = false ∧ w.classification ≠ WC_OPTIONS)
    (hlow : clampInt limitMin value limitMax < s.windowLimit) :
    (window_set_window_limit noHandler limitMin limitMax reservedSlots s value).windows =
      s.windows.drop
        (min (s.windows.length : Int) limitMax - reservedSlots -
          clampInt limitMin value limitMax).toNat ∧
    (window_set_window_limit noHandler limitMin limitMax reservedSlots s value).windowLimit =
      clampInt limitMin value limitMax := by
  have hiter := c3_surplus_iter
    (min (s.windows.length : Int) limitMax - reservedSlots -
      clampInt limitMin value limitMax).toNat
    { s with windowLimit := clampInt limitMin value limitMax }
    (by intro w hw; exact hall w hw)
  simp only [window_set_window_limit, window_close_surplus]
  rw [if_pos hlow]
  exact ⟨hiter.1, hiter.2⟩

/-- Witness for C3's amended theorem at the concrete scenario. -/
theorem c3_witness :
    (∀ w ∈ c3state.windows, w.evictionProtected = false ∧ w.classification ≠ WC_OPTIONS) ∧
    clampInt 1 1 2 < c3state.windowLimit ∧
    (window_set_window_limit noHandler 1 2 2 c3state 1).windows =
      c3state.windows.drop
        (min (c3state.windows.length : Int) 2 - 2 - clampInt 1 1 2).toNat :=
  ⟨by decide, by decide,
    (c3_window_set_window_limit_amended 1 2 2 c3state 1 (by decide) (by decide)).1⟩

/-! ### C4: bulk-close operations and sticky windows -/

/-- With a no-op close handler, `window_close` either leaves the list
untouched (target no longer present) or erases exactly one entry carrying
the target's classification+number key. -/
theorem wm_close_noop_or_erase (s : WMState) (w : Window) :
    (window_close noHandler s (some w)).windows = s.windows ∨
    ∃ idx e, s.windows.get? idx = some e ∧
      e.classification = w.classification ∧ e.number = w.number ∧
      (window_close noHandler s (some w)).windows = s.windows.eraseIdx idx := by
  cases hfind : window_find_by_number s.windows w.classification w.number with
  | none =>
    left
    simp only [window_close, noHandler, hfind]
  | some idx =>
    right
    have hspec := List.findIdx?_eq_some_iff_getElem.mp hfind
    obtain ⟨hlt, hp, -⟩ := hspec
    have hget : s.windows.get? idx = some (s.windows[idx]) := by
      rw [List.get?_eq_getElem?]
      exact List.getElem?_eq_some.mpr ⟨hlt, rfl⟩
    refine ⟨idx, s.windows[idx], hget, ?_, ?_, ?_⟩
    · simpa using (Bool.and_eq_true _ _ |>.mp hp).1
    · simpa using (Bool.and_eq_true _ _ |>.mp hp).2
    · simp only [window_close, noHandler, hfind, hget, window_invalidate]
      rw [wm_take_set_self, wm_drop_set_succ, List.eraseIdx_eq_take_drop_succ]

/-- An element survives erasing an index that does not hold it. -/
theorem wm_mem_eraseIdx_of_get?_ne {α : Type _} (l : List α) (idx : Nat) (x : α)
    (hx : x ∈ l) (hne : l.get? idx ≠ some x) : x ∈ l.eraseIdx idx := by
  obtain ⟨j, hj⟩ := List.mem_iff_get?.mp hx
  have hji : j ≠ idx := fun he => hne (he ▸ hj)
  have hjl : j < l.length := wm_get?_lt_length hj
  rw [List.eraseIdx_eq_take_drop_succ]
  rcases Nat.lt_or_ge j idx with hlt | hge
  · have hjtake : j < (List.take idx l).length := by
      rw [List.length_take]
      omega
    refine List.get?_mem (n := j) ?_
    rw [List.get?_append hjtake, List.get?_take hlt]
    exact hj
  · have hgt : idx < j := Nat.lt_of_le_of_ne hge (fun h => hji h.symm)
    have hge2 : (List.take idx l).length ≤ j - 1 := by
      rw [List.length_take]
      omega
    refine List.get?_mem (n := j - 1) ?_
    rw [List.get?_append_right hge2, List.get?_drop, List.length_take]
    have heq : idx + 1 + (j - 1 - min idx l.length) = j := by omega
    rw [heq]
    exact hj

/-- A window whose key differs from the close target's key survives
`window_close` with a no-op handler. -/
theorem wm_close_preserves_mem (s : WMState) (w x : Window)
    (hx : x ∈ s.windows)
    (hkey : x.classification ≠ w.classification ∨ x.number ≠ w.number) :
    x ∈ (window_close noHandler s (some w)).windows := by
  rcases wm_close_noop_or_erase s w with hsame | ⟨idx, e, hget, hc, hn, herase⟩
  · rw [hsame]; exact hx
  · rw [herase]
    refine wm_mem_eraseIdx_of_get?_ne _ _ _ hx ?_
    rw [hget]
    intro hcontra
    have hex : e = x := by injection hcontra
    subst hex
    rcases hkey with hk | hk
    · exact hk hc
    · exact hk hn

/-- Closing with a no-op handler preserves key uniqueness. -/
theorem wm_close_preserves_uniqueKeys (s : WMState) (w : Window)
    (hnd : uniqueKeys s.windows) :
    uniqueKeys (window_close noHandler s (some w)).windows := by
  rcases wm_close_noop_or_erase s w with hsame | ⟨idx, e, _, _, _, herase⟩
  · rw [hsame]; exact hnd
  · rw [herase]
    exact ((List.eraseIdx_sublist _ idx).map _).nodup hnd

/-- In a unique-key list, distinct member windows have distinct keys. -/
theorem wm_keys_differ (ws : List Window) (hnd : uniqueKeys ws) (x y : Window)
    (hx : x ∈ ws) (hy : y ∈ ws) (hne : x ≠ y) :
    x.classification ≠ y.classification ∨ x.number ≠ y.number := by
  by_contra hcon
  push_neg at hcon
  exact hne (List.inj_on_of_nodup_map hnd hx hy (by simp [hcon.1, hcon.2]))

/-- The backward bulk-close loop never closes a member the predicate
rejects (given unique keys and no-op handlers). -/
theorem c4_down_loop_preserves (pred : Window → Bool) (x : Window) :
    ∀ (n : Nat) (s : WMState), x ∈ s.windows → pred x = false → uniqueKeys s.windows →
      x ∈ (close_down_loop noHandler pred n s).windows ∧
      uniqueKeys (close_down_loop noHandler pred n s).windows := by
  intro n
  induction n with
  | zero => intro s hx _ hnd; exact ⟨hx, hnd⟩
  | succ n ih =>
    intro s hx hpx hnd
    rw [close_down_loop]
    cases hget : s.windows.get? n with
    | none => exact ih s hx hpx hnd
    | some w2 =>
      cases hp2 : pred w2 with
      | false => simp only [hp2, if_neg (Bool.false_ne_true)]; exact ih s hx hpx hnd
      | true =>
        simp only [hp2, if_pos rfl]
        have hw2mem : w2 ∈ s.windows := List.get?_mem hget
        have hxw2 : x ≠ w2 := fun he => by rw [he, hp2] at hpx; cases hpx
        have hkey := wm_keys_differ s.windows hnd x w2 hx hw2mem hxw2
        exact ih _ (wm_close_preserves_mem s w2 x hx hkey)
          hpx (wm_close_preserves_uniqueKeys s w2 hnd)

/-- The close-by-class loop never closes a window of another
classification, and preserves key uniqueness (no-op handlers). -/
theorem c4_by_class_loop_preserves (cls : Int) (x : Window)
    (hxcls : x.classification ≠ cls) :
    ∀ (fuel : Nat) (i : Nat) (s : WMState), x ∈ s.windows → uniqueKeys s.windows →
      x ∈ (close_by_class_loop noHandler cls fuel s i).windows ∧
      uniqueKeys (close_by_class_loop noHandler cls fuel s i).windows := by
  intro fuel
  induction fuel with
  | zero => intro i s hx hnd; exact ⟨hx, hnd⟩
  | succ fuel ih =>
    intro i s hx hnd
    rw [close_by_class_loop]
    cases hget : s.windows.get? i with
    | none => exact ⟨hx, hnd⟩
    | some w2 =>
      dsimp only
      by_cases hcl : w2.classification = cls
      · rw [if_pos hcl]
        have hkey : x.classification ≠ w2.classification ∨ x.number ≠ w2.number :=
          Or.inl (by rw [hcl]; exact hxcls)
        exact ih 0 _ (wm_close_preserves_mem s w2 x hx hkey)
          (wm_close_preserves_uniqueKeys s w2 hnd)
      · rw [if_neg hcl]
        exact ih (i + 1) s hx hnd

/-- The forward except-class loop never closes a sticky member (unique
keys, no-op handlers). -/
theorem c4_except_class_loop_preserves (cls : Int) (x : Window)
    (hsticky : x.sticky = true) :
    ∀ (fuel : Nat) (i : Nat) (s : WMState), x ∈ s.windows → uniqueKeys s.windows →
      x ∈ (close_except_class_loop noHandler cls fuel s i).windows := by
  intro fuel
  induction fuel with
  | zero => intro i s hx _; exact hx
  | succ fuel ih =>
    intro i s hx hnd
    rw [close_except_class_loop]
    cases hget : s.windows.get? i with
    | none => exact hx
    | some w2 =>
      dsimp only
      by_cases hcl : w2.classification ≠ cls ∧ ¬w2.sticky
      · rw [if_pos hcl]
        have hw2mem : w2 ∈ s.windows := List.get?_mem hget
        have hxw2 : x ≠ w2 := fun he => by
          rw [he] at hsticky
          exact hcl.2 (by rw [hsticky])
        have hkey := wm_keys_differ s.windows hnd x w2 hx hw2mem hxw2
        exact ih 1 _ (wm_close_preserves_mem s w2 x hx hkey)
          (wm_close_preserves_uniqueKeys s w2 hnd)
      · rw [if_neg hcl]
        exact ih (i + 1) s hx hnd

/-- The close-top scan never closes a sticky member (unique keys, no-op
handlers). -/
theorem c4_top_loop_preserves (x : Window) (hsticky : x.sticky = true) :
    ∀ (n : Nat) (s : WMState), x ∈ s.windows → uniqueKeys s.windows →
      x ∈ (close_top_loop noHandler n s).windows := by
  intro n
  induction n with
  | zero => intro s hx _; exact hx
  | succ n ih =>
    intro s hx hnd
    rw [close_top_loop]
    cases hget : s.windows.get? n with
    | none => exact ih s hx hnd
    | some w2 =>
      cases hst : w2.sticky with
      | true => simp only [hst, Bool.not_true, if_neg (Bool.false_ne_true)]; exact ih s hx hnd
      | false =>
        simp only [hst, Bool.not_false, if_pos rfl]
        have hw2mem : w2 ∈ s.windows := List.get?_mem hget
        have hxw2 : x ≠ w2 := fun he => by rw [he, hst] at hsticky; cases hsticky
        have hkey := wm_keys_differ s.windows hnd x w2 hx hw2mem hxw2
        exact wm_close_preserves_mem s w2 x hx hkey

/-- Counterexample for C4: `window_close_all_except_flags` has no
stick-to-back/front exemption — with a mask sharing no flag with the
window, a stick-to-front window is closed. -/
theorem c4_counterexample :
    stickyWin.flags.stick_to_front = true ∧
    stickyWin ∈ stickyState.windows ∧
    (window_close_all_except_flags noHandler stickyState WFlags.none).windows = [] := by
  decide

/-- C4 (amended): with no-op close handlers and unique
classification+number keys, no bulk-close operation closes a stick-to-back
or stick-to-front window, except that (a) `window_close_all`,
`window_close_all_except_class` and `window_close_top` first close every
`WC_DROPDOWN`-class window regardless of its flags, so only sticky windows
of other classes are exempt, and (b) `window_close_all_except_flags`
exempts exactly the windows sharing a flag with the caller's mask, so a
sticky window survives it only when the mask covers one of its flags. -/
theorem c4_bulk_close_amended (fuel : Nat) (s : WMState) (x : Window)
    (hx : x ∈ s.windows) (hsticky : x.sticky = true) (hnd : uniqueKeys s.windows) :
    (x.classification ≠ WC_DROPDOWN →
      x ∈ (window_close_all noHandler fuel s).windows) ∧
    (∀ cls, x.classification ≠ WC_DROPDOWN →
      x ∈ (window_close_all_except_class noHandler fuel s cls).windows) ∧
    (∀ scenarioEditor stepLandscape, x.classification ≠ WC_DROPDOWN →
      x ∈ (window_close_top noHandler fuel scenarioEditor stepLandscape s).windows) ∧
    (∀ mask, x.flags.meets mask = true →
      x ∈ (window_close_all_except_flags noHandler s mask).windows) := by
  refine ⟨?_, ?_, ?_, ?_⟩
  · intro hdd
    have h1 := c4_by_class_loop_preserves WC_DROPDOWN x hdd fuel 0 s hx hnd
    exact (c4_down_loop_preserves (fun w => !w.sticky) x _ _ h1.1
      (by simp [hsticky]) h1.2).1
  · intro cls hdd
    have h1 := c4_by_class_loop_preserves WC_DROPDOWN x hdd fuel 0 s hx hnd
    exact c4_except_class_loop_preserves cls x hsticky fuel 0 _ h1.1 h1.2
  · intro se sl hdd
    have h1 := c4_by_class_loop_preserves WC_DROPDOWN x hdd fuel 0 s hx hnd
    rw [window_close_top]
    by_cases hse : se = true ∧ ¬sl = true
    · rw [if_pos hse]; exact h1.1
    · rw [if_neg hse]
      exact c4_top_loop_preserves x hsticky _ _ h1.1 h1.2
  · intro mask hmask
    exact (c4_down_loop_preserves (fun w => !(w.flags.meets mask)) x _ _ hx
      (by simp [hmask]) hnd).1

/-- Witness for C4's amended theorem: the sticky non-dropdown window
survives `window_close_all`. -/
theorem c4_witness :
    stickyWin ∈ stickyState.windows ∧ stickyWin.sticky = true ∧
    uniqueKeys stickyState.windows ∧
    stickyWin ∈ (window_close_all noHandler 4 stickyState).windows :=
  ⟨by decide, by decide, by unfold uniqueKeys; decide,
    (c4_bulk_close_amended 4 stickyState stickyWin (by decide) (by decide)
      (by unfold uniqueKeys; decide)).1 (by decide)⟩

/-! ### C5: window_bring_to_front -/

theorem wm_insertIdx_eraseIdx_self {α : Type _} :
    ∀ (l : List α) (i : Nat) (a : α), l.get? i = some a →
      (l.eraseIdx i).insertIdx i a = l := by
  intro l
  induction l with
  | nil => intro i a h; cases h
  | cons x xs ih =>
    intro i a h
    cases i with
    | zero =>
      have : x = a := by simpa using h
      simp [this]
    | succ n =>
      have := ih n a (by simpa using h)
      simp [List.insertIdx_succ_cons, this]

theorem wm_insertIdx_set_self {α : Type _} :
    ∀ (l : List α) (i : Nat) (a b : α), i ≤ l.length →
      (l.insertIdx i a).set i b = l.insertIdx i b := by
  intro l
  induction l with
  | nil =>
    intro i a b h
    have h0 : i = 0 := by simpa using h
    subst h0
    rfl
  | cons x xs ih =>
    intro i a b h
    cases i with
    | zero => rfl
    | succ n =>
      simp only [List.insertIdx_succ_cons, List.set_cons_succ]
      rw [ih n a b (by simpa using h)]

theorem wm_get?_insertIdx_self {α : Type _} :
    ∀ (l : List α) (i : Nat) (a : α), i ≤ l.length →
      (l.insertIdx i a).get? i = some a := by
  intro l
  induction l with
  | nil =>
    intro i a h
    have h0 : i = 0 := by simpa using h
    subst h0
    rfl
  | cons x xs ih =>
    intro i a h
    cases i with
    | zero => rfl
    | succ n =>
      simp only [List.insertIdx_succ_cons, List.get?_cons_succ]
      exact ih n a (by simpa using h)

theorem wm_set_eq_eraseIdx_insertIdx {α : Type _} :
    ∀ (l : List α) (i : Nat) (b : α), i < l.length →
      l.set i b = (l.eraseIdx i).insertIdx i b := by
  intro l
  induction l with
  | nil => intro i b h; cases h
  | cons x xs ih =>
    intro i b h
    cases i with
    | zero => rfl
    | succ n =>
      simp only [List.set_cons_succ, List.eraseIdx_cons_succ, List.insertIdx_succ_cons]
      rw [ih n b (by simpa using h)]

theorem wm_swapAdj_cons_succ (x : Window) (xs : List Window) (i : Nat) :
    swapAdj (x :: xs) (i + 1) = x :: swapAdj xs i := by
  unfold swapAdj
  simp only [List.get?_cons_succ]
  cases xs.get? i <;> cases xs.get? (i + 1) <;> rfl

theorem wm_swapAdj_eraseIdx :
    ∀ (l : List Window) (i : Nat) (a b : Window), l.get? i = some a →
      l.get? (i + 1) = some b → (swapAdj l i).eraseIdx (i + 1) = l.eraseIdx i := by
  intro l
  induction l with
  | nil => intro i a b h; cases h
  | cons x xs ih =>
    intro i a b h1 h2
    cases i with
    | zero =>
      cases xs with
      | nil => cases h2
      | cons y ys =>
        have hx : x = a := by simpa using h1
        have hy : y = b := by simpa using h2
        subst hx; subst hy
        rfl
    | succ n =>
      rw [wm_swapAdj_cons_succ]
      simp only [List.eraseIdx_cons_succ]
      rw [ih n a b (by simpa using h1) (by simpa using h2)]

theorem wm_swapAdj_get?_succ (l : List Window) (i : Nat) (a : Window)
    (h1 : l.get? i = some a) (h2 : i + 1 < l.length) :
    (swapAdj l i).get? (i + 1) = some a := by
  obtain ⟨b, hb⟩ : ∃ b, l.get? (i + 1) = some b := by
    rw [List.get?_eq_getElem?]
    exact ⟨l[i + 1], List.getElem?_eq_some.mpr ⟨h2, rfl⟩⟩
  unfold swapAdj
  rw [h1, hb]
  exact wm_get?_set_self _ _ _ (by simpa using h2)

theorem wm_bubble_up_spec (a : Window) :
    ∀ (k : Nat) (i : Nat) (ws : List Window), ws.get? i = some a → i + k < ws.length →
      bubble_up ws i k = (ws.eraseIdx i).insertIdx (i + k) a := by
  intro k
  induction k with
  | zero =>
    intro i ws h _
    simpa [bubble_up] using (wm_insertIdx_eraseIdx_self ws i a h).symm
  | succ k ih =>
    intro i ws h hk
    obtain ⟨b, hb⟩ : ∃ b, ws.get? (i + 1) = some b := by
      rw [List.get?_eq_getElem?]
      exact ⟨ws[i + 1], List.getElem?_eq_some.mpr ⟨by omega, rfl⟩⟩
    have hlen : (swapAdj ws i).length = ws.length := by
      unfold swapAdj
      rw [h, hb]
      simp
    rw [bubble_up]
    rw [ih (i + 1) (swapAdj ws i)
      (wm_swapAdj_get?_succ ws i a h (by omega)) (by omega)]
    rw [wm_swapAdj_eraseIdx ws i a b h hb]
    congr 1
    omega

theorem wm_find_last_non_stf_spec :
    ∀ (n : Nat) (ws : List Window) (v : Nat), find_last_non_stf ws n = some v →
      v < n ∧ (∃ wv, ws.get? v = some wv ∧ wv.flags.stick_to_front = false) ∧
      ∀ k, v < k → k < n → ∀ wk, ws.get? k = some wk → wk.flags.stick_to_front = true := by
  intro n
  induction n with
  | zero => intro ws v h; cases h
  | succ n ih =>
    intro ws v h
    rw [find_last_non_stf] at h
    cases hget : ws.get? n with
    | none =>
      rw [hget] at h
      obtain ⟨h1, h2, h3⟩ := ih ws v h
      refine ⟨by omega, h2, ?_⟩
      intro k hk1 hk2 wk hwk
      rcases Nat.lt_or_ge k n with hlt | hge
      · exact h3 k hk1 hlt wk hwk
      · have : k = n := by omega
        rw [this, hget] at hwk
        cases hwk
    | some wn =>
      rw [hget] at h
      dsimp only at h
      cases hst : wn.flags.stick_to_front with
      | false =>
        simp only [hst, Bool.not_false, if_pos rfl] at h
        have hv : v = n := by injection h with h2; omega
        subst hv
        exact ⟨Nat.lt_succ_self _, ⟨wn, hget, hst⟩, fun k hk1 hk2 _ _ => by omega⟩
      | true =>
        simp only [hst, Bool.not_true, if_neg (Bool.false_ne_true)] at h
        obtain ⟨h1, h2, h3⟩ := ih ws v h
        refine ⟨by omega, h2, ?_⟩
        intro k hk1 hk2 wk hwk
        rcases Nat.lt_or_ge k n with hlt | hge
        · exact h3 k hk1 hlt wk hwk
        · have : k = n := by omega
          rw [this, hget] at hwk
          injection hwk with h4
          rw [← h4]
          exact hst

theorem wm_find_last_non_stf_exists :
    ∀ (n : Nat) (ws : List Window) (i : Nat) (w : Window), i < n → ws.get? i = some w →
      w.flags.stick_to_front = false →
      ∃ v, find_last_non_stf ws n = some v ∧ i ≤ v := by
  intro n
  induction n with
  | zero => intro ws i w h; omega
  | succ n ih =>
    intro ws i w hi hget hstf
    rw [find_last_non_stf]
    cases hg : ws.get? n with
    | none =>
      have hin : i < n := by
        have h1 : i < ws.length := wm_get?_lt_length hget
        have h2 : ws.length ≤ n := by
          by_contra hcon
          push_neg at hcon
          obtain ⟨x, hx⟩ : ∃ x, ws.get? n = some x := by
            rw [List.get?_eq_getElem?]
            exact ⟨ws[n], List.getElem?_eq_some.mpr ⟨hcon, rfl⟩⟩
          rw [hx] at hg
          cases hg
        omega
      exact ih ws i w hin hget hstf
    | some wn =>
      cases hst : wn.flags.stick_to_front with
      | false =>
        simp only [hst, Bool.not_false, if_pos rfl]
        exact ⟨n, rfl, by omega⟩
      | true =>
        simp only [hst, Bool.not_true, if_neg (Bool.false_ne_true)]
        have hin : i ≠ n := fun he => by
          rw [he, hg] at hget
          injection hget with h4
          rw [← h4] at hstf
          rw [hstf] at hst
          cases hst
        exact ih ws i w (by omega) hget hstf

/-- C5: `window_bring_to_front` returns a stick-to-back/front window
unmoved (whole state unchanged); otherwise it rotates the window to the
highest non-stick-to-front slot — just below the stick-to-front suffix, or
the list end when there is none — shifting the intermediate entries back one
slot with their relative order preserved, and finally nudges the window's x
position to 20 (moving an owned viewport's x by the same amount) when fewer
than 20 pixels of it would reach past the origin. -/
theorem c5_window_bring_to_front_spec (s : WMState) (i : Nat) (w : Window)
    (hw : s.windows.get? i = some w) :
    (w.sticky = true → window_bring_to_front s i = (s, i)) ∧
    (w.sticky = false →
      ∃ v, find_last_non_stf s.windows s.windows.length = some v ∧ i ≤ v ∧
        v < s.windows.length ∧
        (∀ k wk, v < k → s.windows.get? k = some wk → wk.flags.stick_to_front = true) ∧
        (window_bring_to_front s i).2 = v ∧
        ∃ wfin,
          (window_bring_to_front s i).1.windows = (s.windows.eraseIdx i).insertIdx v wfin ∧
          (if w.x + w.width < 20 then
            wfin = { w with
                     x := w.x + (20 - w.x)
                     viewport := w.viewport.map (fun vp => { vp with x := vp.x + (20 - w.x) }) }
          else wfin = w)) := by
  have hilen : i < s.windows.length := wm_get?_lt_length hw
  constructor
  · intro hsticky
    unfold window_bring_to_front
    rw [hw]
    dsimp only
    rw [if_pos hsticky]
  · intro hsticky
    have hstf : w.flags.stick_to_front = false := by
      have := hsticky
      unfold Window.sticky at this
      exact (Bool.or_eq_false_iff.mp this).2
    obtain ⟨v, hfind, hiv⟩ :=
      wm_find_last_non_stf_exists s.windows.length s.windows i w hilen hw hstf
    obtain ⟨hvlen, ⟨wv, hwv, hwvstf⟩, habove⟩ :=
      wm_find_last_non_stf_spec s.windows.length s.windows v hfind
    refine ⟨v, hfind, hiv, hvlen, ?_, ?_⟩
    · intro k wk hk hgetk
      exact habove k hk (wm_get?_lt_length hgetk) wk hgetk
    · unfold window_bring_to_front
      rw [hw]
      dsimp only
      rw [if_neg (by rw [hsticky]; exact Bool.false_ne_true), hfind]
      dsimp only
      by_cases hiv2 : i = v
      · rw [if_neg (by omega)]
        dsimp only
        rw [hw]
        dsimp only
        by_cases hnudge : w.x + w.width < 20
        · rw [if_pos hnudge]
          refine ⟨hiv2, { w with
                    x := w.x + (20 - w.x)
                    viewport := w.viewport.map (fun vp => { vp with x := vp.x + (20 - w.x) }) },
                  ?_, by rw [if_pos hnudge]⟩
          simp only [window_invalidate]
          rw [wm_set_eq_eraseIdx_insertIdx _ _ _ hilen, hiv2]
        · rw [if_neg hnudge]
          refine ⟨hiv2, w, ?_, by rw [if_neg hnudge]⟩
          rw [← hiv2]
          exact (wm_insertIdx_eraseIdx_self _ _ _ hw).symm
      · rw [if_pos hiv2]
        dsimp only
        have hbub : bubble_up s.windows i (v - i) =
            (s.windows.eraseIdx i).insertIdx v w := by
          rw [wm_bubble_up_spec w (v - i) i s.windows hw (by omega)]
          congr 1
          omega
        have hlenerase : v ≤ (s.windows.eraseIdx i).length := by
          rw [List.length_eraseIdx, if_pos hilen]
          omega
        have hgetv : (bubble_up s.windows i (v - i)).get? v = some w := by
          rw [hbub]
          exact wm_get?_insertIdx_self _ _ _ hlenerase
        rw [hgetv]
        dsimp only [window_invalidate]
        rw [hgetv]
        dsimp only
        by_cases hnudge : w.x + w.width < 20
        · rw [if_pos hnudge]
          refine ⟨rfl, { w with
                    x := w.x + (20 - w.x)
                    viewport := w.viewport.map (fun vp => { vp with x := vp.x + (20 - w.x) }) },
                  ?_, by rw [if_pos hnudge]⟩
          dsimp only
          rw [hbub]
          rw [wm_insertIdx_set_self _ _ _ _ hlenerase]
        · rw [if_neg hnudge]
          exact ⟨rfl, w, by dsimp only; rw [hbub], by rw [if_neg hnudge]⟩

/-- Witness for C5 at a concrete three-window state. -/
theorem c5_witness :
    c5state.windows.get? 0 = some (plainWin 7) ∧ (plainWin 7).sticky = false ∧
    (window_bring_to_front c5state 0).2 = 1 ∧
    (window_bring_to_front c5state 0).1.windows =
      (c5state.windows.eraseIdx 0).insertIdx 1
        { plainWin 7 with
          x := (plainWin 7).x + (20 - (plainWin 7).x)
          viewport := (plainWin 7).viewport.map
            (fun vp => { vp with x := vp.x + (20 - (plainWin 7).x) }) } := by
  have h := (c5_window_bring_to_front_spec c5state 0 (plainWin 7) (by decide)).2 (by decide)
  obtain ⟨v, hfind, hle, hlt, hstf, hsnd, wfin, hws, hcond⟩ := h
  have hv1 : v = 1 := by
    have hcomp : find_last_non_stf c5state.windows c5state.windows.length = some 1 := by
      decide
    have := hcomp.symm.trans hfind
    injection this with hval
    omega
  subst hv1
  rw [if_pos (by decide)] at hcond
  subst hcond
  exact ⟨by decide, by decide, hsnd, hws⟩

/-! ### C7: window_find_widget_from_point -/

theorem wm_getLast?_mem {α : Type _} : ∀ (l : List α) (a : α), l.getLast? = some a → a ∈ l := by
  intro l
  induction l with
  | nil => intro a h; cases h
  | cons x xs ih =>
    intro a h
    cases xs with
    | nil =>
      have : x = a := by simpa [List.getLast?] using h
      rw [this]
      exact List.mem_cons_self a []
    | cons y ys =>
      rw [List.getLast?_cons_cons] at h
      exact List.mem_cons_of_mem _ (ih a h)

/-- The scan loop returns the last hit's index (offset by the running
counter), or the accumulator when there is none. -/
theorem c7_find_widget_loop_spec (w : Window) (x y : Int) :
    ∀ (l : List Widget) (i best : Int),
      find_widget_loop w x y l i best =
        match (hitIndices w x y l).getLast? with
        | none => best
        | some k => i + (k : Int) := by
  intro l
  induction l with
  | nil => intro i best; rfl
  | cons wd rest ih =>
    intro i best
    rw [find_widget_loop, hitIndices]
    by_cases hlast : wd.type = WidgetType.last
    · rw [if_pos hlast, if_pos hlast]
      rfl
    · rw [if_neg hlast, if_neg hlast]
      by_cases hhit : wd.type ≠ WidgetType.empty ∧ widget_contains w wd x y
      · rw [if_pos hhit, if_pos hhit, ih]
        rw [List.getLast?_cons, List.getLast?_map]
        cases hrest : (hitIndices w x y rest).getLast? with
        | none => simp
        | some k => simp; ring
      · rw [if_neg hhit, if_neg hhit, ih]
        rw [List.getLast?_map]
        cases hrest : (hitIndices w x y rest).getLast? with
        | none => simp
        | some k => simp; ring

/-- Every hit index addresses a non-empty widget containing the point. -/
theorem c7_hitIndices_mem (w : Window) (x y : Int) :
    ∀ (l : List Widget) (m : Nat), m ∈ hitIndices w x y l →
      ∃ wd, l.get? m = some wd ∧ wd.type ≠ WidgetType.empty ∧
        widget_contains w wd x y = true := by
  intro l
  induction l with
  | nil => intro m h; cases h
  | cons wd rest ih =>
    intro m h
    rw [hitIndices] at h
    by_cases hlast : wd.type = WidgetType.last
    · rw [if_pos hlast] at h
      cases h
    · rw [if_neg hlast] at h
      by_cases hhit : wd.type ≠ WidgetType.empty ∧ widget_contains w wd x y
      · rw [if_pos hhit] at h
        cases h with
        | head => exact ⟨wd, rfl, hhit.1, hhit.2⟩
        | tail _ hmem =>
          obtain ⟨k, hk, hkm⟩ := List.mem_map.mp hmem
          obtain ⟨wd2, h1, h2, h3⟩ := ih k hk
          exact ⟨wd2, by rw [← hkm]; simpa using h1, h2, h3⟩
      · rw [if_neg hhit] at h
        obtain ⟨k, hk, hkm⟩ := List.mem_map.mp h
        obtain ⟨wd2, h1, h2, h3⟩ := ih k hk
        exact ⟨wd2, by rw [← hkm]; simpa using h1, h2, h3⟩

/-- C7: `window_find_widget_from_point` dispatches the invalidate event
first, then resolves the last non-empty widget before the terminator whose
bounds contain the point, returning its index — or that index plus one when
the widget is dropdown-typed — and -1 when no non-empty widget contains the
point. -/
theorem c7_window_find_widget_from_point_spec (onInvalidate : Window → Window)
    (w0 : Window) (x y : Int) :
    ((hitIndices (onInvalidate w0) x y (onInvalidate w0).widgets).getLast? = none →
      window_find_widget_from_point onInvalidate w0 x y = -1) ∧
    (∀ m, (hitIndices (onInvalidate w0) x y (onInvalidate w0).widgets).getLast? = some m →
      ∃ wd, (onInvalidate w0).widgets.get? m = some wd ∧
        wd.type ≠ WidgetType.empty ∧ widget_contains (onInvalidate w0) wd x y = true ∧
        window_find_widget_from_point onInvalidate w0 x y =
          if wd.type = WidgetType.dropdown then (m : Int) + 1 else (m : Int)) := by
  constructor
  · intro hnone
    rw [window_find_widget_from_point]
    rw [c7_find_widget_loop_spec, hnone]
    rfl
  · intro m hsome
    obtain ⟨wd, hwd, hne, hcont⟩ :=
      c7_hitIndices_mem (onInvalidate w0) x y (onInvalidate w0).widgets m
        (wm_getLast?_mem _ _ hsome)
    refine ⟨wd, hwd, hne, hcont, ?_⟩
    rw [window_find_widget_from_point]
    rw [c7_find_widget_loop_spec, hsome]
    dsimp only
    have hzm : (0 : Int) + (m : Int) = (m : Int) := by omega
    rw [hzm]
    rw [if_pos (show (m : Int) ≠ -1 by omega)]
    rw [Int.toNat_natCast, hwd]

/-- Witness for C7: the point (15,15) of `c7window` resolves to the
dropdown widget at index 1, so index 2 is returned. -/
theorem c7_witness :
    (hitIndices (id c7window) 15 15 (id c7window).widgets).getLast? = some 1 ∧
    window_find_widget_from_point id c7window 15 15 = 2 := by
  refine ⟨by decide, ?_⟩
  obtain ⟨wd, hwd, hne, hcont, hres⟩ :=
    (c7_window_find_widget_from_point_spec id c7window 15 15).2 1 (by decide)
  have hget : (id c7window).widgets.get? 1 = some ⟨WidgetType.dropdown, 10, 30, 10, 20⟩ := by
    decide
  have hwd2 : wd = ⟨WidgetType.dropdown, 10, 30, 10, 20⟩ :=
    Option.some.inj (hwd.symm.trans hget)
  rw [hwd2] at hres
  simpa using hres

/-! ### C6: window_zoom_set -/

theorem c6_zoom_in_fields : ∀ (k : Nat) (p : Window × Viewport),
    (zoom_steps zoom_in_step k p).2.zoom = p.2.zoom - k ∧
    (zoom_steps zoom_in_step k p).2.view_width = halveIter k p.2.view_width ∧
    (zoom_steps zoom_in_step k p).2.view_height = halveIter k p.2.view_height := by
  intro k
  induction k with
  | zero => intro p; simp [zoom_steps, halveIter]
  | succ k ih =>
    intro p
    rw [zoom_steps]
    obtain ⟨h1, h2, h3⟩ := ih (zoom_in_step p)
    refine ⟨?_, ?_, ?_⟩
    · rw [h1]
      simp only [zoom_in_step]
      push_cast
      ring
    · rw [h2]
      rfl
    · rw [h3]
      rfl

theorem c6_zoom_out_fields : ∀ (k : Nat) (p : Window × Viewport),
    (zoom_steps zoom_out_step k p).2.zoom = p.2.zoom + k ∧
    (zoom_steps zoom_out_step k p).2.view_width = p.2.view_width * 2 ^ k ∧
    (zoom_steps zoom_out_step k p).2.view_height = p.2.view_height * 2 ^ k := by
  intro k
  induction k with
  | zero => intro p; simp [zoom_steps]
  | succ k ih =>
    intro p
    rw [zoom_steps]
    obtain ⟨h1, h2, h3⟩ := ih (zoom_out_step p)
    refine ⟨?_, ?_, ?_⟩
    · rw [h1]
      simp only [zoom_out_step]
      push_cast
      ring
    · rw [h2]
      simp only [zoom_out_step]
      ring
    · rw [h3]
      simp only [zoom_out_step]
      ring

theorem c6_halveIter_mul_pow : ∀ (k : Nat) (a : Int), halveIter k (a * 2 ^ k) = a := by
  intro k
  induction k with
  | zero => intro a; simp [halveIter]
  | succ k ih =>
    intro a
    rw [halveIter]
    have h2 : a * 2 ^ (k + 1) = a * 2 ^ k * 2 := by ring
    rw [h2, Int.mul_tdiv_cancel _ (by norm_num)]
    exact ih a

theorem c6_halveIter_dvd : ∀ (k : Nat) (a : Int), ((2 : Int) ^ k ∣ a) →
    halveIter k a * 2 ^ k = a := by
  intro k
  induction k with
  | zero => intro a _; simp [halveIter]
  | succ k ih =>
    intro a hdvd
    obtain ⟨c, hc⟩ := hdvd
    have hc2 : a = 2 * (2 ^ k * c) := by rw [hc]; ring
    rw [halveIter, hc2, Int.mul_tdiv_cancel_left _ (by norm_num)]
    have := ih (2 ^ k * c) ⟨c, rfl⟩
    rw [pow_succ]
    calc halveIter k (2 ^ k * c) * (2 ^ k * 2)
        = halveIter k (2 ^ k * c) * 2 ^ k * 2 := by ring
    _ = 2 ^ k * c * 2 := by rw [this]
    _ = 2 * (2 ^ k * c) := by ring

/-- Bringing to front keeps the moved window retrievable at the
returned slot, with its viewport's view extents and zoom unchanged (the
nudge only shifts screen positions). -/
theorem c6_bring_track (s : WMState) (i : Nat) (w : Window)
    (hw : s.windows.get? i = some w) :
    ∃ w2, (window_bring_to_front s i).1.windows.get? (window_bring_to_front s i).2 = some w2 ∧
      w2.viewport.map (fun vp => (vp.view_width, vp.view_height, vp.zoom)) =
        w.viewport.map (fun vp => (vp.view_width, vp.view_height, vp.zoom)) := by
  have hilen : i < s.windows.length := wm_get?_lt_length hw
  unfold window_bring_to_front
  rw [hw]
  dsimp only
  by_cases hsticky : w.sticky = true
  · rw [if_pos hsticky]
    exact ⟨w, hw, rfl⟩
  · rw [if_neg hsticky]
    have hstf : w.flags.stick_to_front = false := by
      have hfalse : w.sticky = false := by
        cases hsk : w.sticky with
        | false => rfl
        | true => exact absurd hsk hsticky
      unfold Window.sticky at hfalse
      exact (Bool.or_eq_false_iff.mp hfalse).2
    obtain ⟨v, hfind, hiv⟩ :=
      wm_find_last_non_stf_exists s.windows.length s.windows i w hilen hw hstf
    obtain ⟨hvlen, -, -⟩ := wm_find_last_non_stf_spec s.windows.length s.windows v hfind
    rw [hfind]
    dsimp only
    by_cases hiv2 : i = v
    · rw [if_neg (by omega)]
      dsimp only
      rw [hw]
      dsimp only
      by_cases hnudge : w.x + w.width < 20
      · rw [if_pos hnudge]
        dsimp only [window_invalidate]
        refine ⟨_, wm_get?_set_self _ _ _ hilen, ?_⟩
        cases w.viewport <;> rfl
      · rw [if_neg hnudge]
        exact ⟨w, hw, rfl⟩
    · rw [if_pos hiv2]
      dsimp only
      have hbub : bubble_up s.windows i (v - i) =
          (s.windows.eraseIdx i).insertIdx v w := by
        rw [wm_bubble_up_spec w (v - i) i s.windows hw (by omega)]
        congr 1
        omega
      have hlenerase : v ≤ (s.windows.eraseIdx i).length := by
        rw [List.length_eraseIdx, if_pos hilen]
        omega
      have hgetv : (bubble_up s.windows i (v - i)).get? v = some w := by
        rw [hbub]
        exact wm_get?_insertIdx_self _ _ _ hlenerase
      rw [hgetv]
      dsimp only [window_invalidate]
      rw [hgetv]
      dsimp only
      by_cases hnudge : w.x + w.width < 20
      · rw [if_pos hnudge]
        dsimp only
        have hlen2 : v < (bubble_up s.windows i (v - i)).length := by
          rw [hbub, List.length_insertIdx _ _ hlenerase, List.length_eraseIdx, if_pos hilen]
          omega
        refine ⟨_, wm_get?_set_self _ _ _ hlen2, ?_⟩
        cases w.viewport <;> rfl
      · rw [if_neg hnudge]
        exact ⟨w, hgetv, rfl⟩

/-- A no-op zoom request (already at the clamped level) leaves the state
untouched. -/
theorem c6_zoom_set_noop (maxZoom : Int) (cfg : Bool)
    (capture : Window → Viewport → Int × Int × Int × Int)
    (recentre : Window → Viewport → Int × Int × Int × Int → Window)
    (s : WMState) (i : Nat) (w : Window) (v : Viewport) (zl : Int)
    (hw : s.windows.get? i = some w) (hv : w.viewport = some v)
    (heq : v.zoom = clampInt 0 zl maxZoom) :
    window_zoom_set maxZoom cfg capture recentre s i zl false = (s, i) := by
  simp only [window_zoom_set, hw, hv]
  rw [if_pos heq]

/-- The effect of one non-trivial `window_zoom_set` call (no cursor
anchoring) on the target window's viewport: the zoom level becomes the
clamped request, and the view extents are halved once per zoom-in step then
doubled once per zoom-out step. -/
theorem c6_zoom_set_effect (maxZoom : Int) (cfg : Bool)
    (capture : Window → Viewport → Int × Int × Int × Int)
    (recentre : Window → Viewport → Int × Int × Int × Int → Window)
    (s : WMState) (i : Nat) (w : Window) (v : Viewport) (zl : Int)
    (hw : s.windows.get? i = some w) (hv : w.viewport = some v)
    (hcl : clampInt 0 zl maxZoom = zl) (hne : v.zoom ≠ zl) :
    ∃ w2 v2,
      (window_zoom_set maxZoom cfg capture recentre s i zl false).1.windows.get?
        (window_zoom_set maxZoom cfg capture recentre s i zl false).2 = some w2 ∧
      w2.viewport = some v2 ∧ v2.zoom = zl ∧
      v2.view_width = halveIter (v.zoom - zl).toNat v.view_width * 2 ^ (zl - v.zoom).toNat ∧
      v2.view_height = halveIter (v.zoom - zl).toNat v.view_height * 2 ^ (zl - v.zoom).toNat := by
  have hilen : i < s.windows.length := wm_get?_lt_length hw
  simp only [window_zoom_set, hw, hv, hcl]
  rw [if_neg hne]
  rw [if_neg (by simp)]
  dsimp only
  set p1 := zoom_steps zoom_in_step (v.zoom - zl).toNat (w, v) with hp1
  set p2 := zoom_steps zoom_out_step (zl - p1.2.zoom).toNat p1 with hp2
  obtain ⟨hin1, hin2, hin3⟩ := c6_zoom_in_fields (v.zoom - zl).toNat (w, v)
  rw [← hp1] at hin1 hin2 hin3
  obtain ⟨hout1, hout2, hout3⟩ := c6_zoom_out_fields (zl - p1.2.zoom).toNat p1
  rw [← hp2] at hout1 hout2 hout3
  have hp1zoom : p1.2.zoom = v.zoom - (v.zoom - zl).toNat := by simpa using hin1
  have hp1w : p1.2.view_width = halveIter (v.zoom - zl).toNat v.view_width := by
    simpa using hin2
  have hp1h : p1.2.view_height = halveIter (v.zoom - zl).toNat v.view_height := by
    simpa using hin3
  have hkout : (zl - p1.2.zoom).toNat = (zl - v.zoom).toNat := by
    rw [hp1zoom]
    omega
  have hzoom2 : p2.2.zoom = zl := by
    rw [hout1, hp1zoom]
    push_cast
    omega
  have hwidth2 : p2.2.view_width =
      halveIter (v.zoom - zl).toNat v.view_width * 2 ^ (zl - v.zoom).toNat := by
    rw [hout2, hp1w, hkout]
  have hheight2 : p2.2.view_height =
      halveIter (v.zoom - zl).toNat v.view_height * 2 ^ (zl - v.zoom).toNat := by
    rw [hout3, hp1h, hkout]
  set w4 : Window := { p2.1 with viewport := some p2.2 } with hw4
  set s1 : WMState := { s with windows := s.windows.set i w4 } with hs1
  have hgetw4 : s1.windows.get? i = some w4 := wm_get?_set_self _ _ _ (by simpa using hilen)
  obtain ⟨w5, hget5, hmap5⟩ := c6_bring_track s1 i w4 hgetw4
  have hmapval : w5.viewport.map (fun vp => (vp.view_width, vp.view_height, vp.zoom)) =
      some (p2.2.view_width, p2.2.view_height, p2.2.zoom) := by
    rw [hmap5]
    rfl
  obtain ⟨v5, hv5, hv5val⟩ := Option.map_eq_some'.mp hmapval
  have hv5w : v5.view_width = p2.2.view_width := congrArg Prod.fst hv5val
  have hv5h : v5.view_height = p2.2.view_height := by
    have := congrArg Prod.snd hv5val
    exact congrArg Prod.fst this
  have hv5z : v5.zoom = p2.2.zoom := by
    have := congrArg Prod.snd hv5val
    exact congrArg Prod.snd this
  refine ⟨w5, v5, ?_, hv5, ?_, ?_, ?_⟩
  · cases hgi : (window_bring_to_front s1 i).1.windows.get? i with
    | none => exact hget5
    | some wi => exact hget5
  · rw [hv5z, hzoom2]
  · rw [hv5w, hwidth2]
  · rw [hv5h, hheight2]

/-- Counterexample for C6: a viewport with odd view extents (101 by 101 at
zoom 1) does not round-trip: zooming in to level 0 truncates 101 to 50, and
zooming back out yields 100. -/
theorem c6_counterexample :
    oddZoomWin.viewport = some oddViewport ∧
    oddViewport.zoom = 1 ∧ oddViewport.view_width = 101 ∧
    (0 : Int) ≤ 0 ∧ (0 : Int) ≤ 3 ∧ (1 : Int) ≤ 3 ∧
    ((window_zoom_set 3 false capNone recNone
        (window_zoom_set 3 false capNone recNone oddZoomState 0 0 false).1
        (window_zoom_set 3 false capNone recNone oddZoomState 0 0 false).2 1 false).1.windows.get?
      (window_zoom_set 3 false capNone recNone
        (window_zoom_set 3 false capNone recNone oddZoomState 0 0 false).1
        (window_zoom_set 3 false capNone recNone oddZoomState 0 0 false).2 1 false).2) =
      some { oddZoomWin with
             viewport := some { oddViewport with view_width := 100, view_height := 100 } } := by
  decide

/-- C6 (amended): the zoom round-trip `zoomSet(w, L)` then `zoomSet(w, L0)`
(no cursor anchoring, both levels within `[0, maxZoom]`, `L0` the original
level) restores the viewport's view extents provided the round trip zooms
out first (`L0 ≤ L`), or the view extents are divisible by `2^(L0-L)` — as
they are whenever the extents carry the usual `size << zoom` shape; for odd
extents and `L < L0` the truncating halving loses the low bit, which the
doubling cannot restore. -/
theorem c6_window_zoom_set_roundtrip (maxZoom : Int) (cfg : Bool)
    (capture : Window → Viewport → Int × Int × Int × Int)
    (recentre : Window → Viewport → Int × Int × Int × Int → Window)
    (s : WMState) (i : Nat) (w : Window) (v : Viewport) (L L0 : Int)
    (hw : s.windows.get? i = some w) (hv : w.viewport = some v)
    (hL0a : 0 ≤ L0) (hL0b : L0 ≤ maxZoom) (hLa : 0 ≤ L) (hLb : L ≤ maxZoom)
    (hz : v.zoom = L0)
    (hdvd : L0 ≤ L ∨ (((2 : Int) ^ (L0 - L).toNat ∣ v.view_width) ∧
                      ((2 : Int) ^ (L0 - L).toNat ∣ v.view_height))) :
    ∃ w2 v2,
      (window_zoom_set maxZoom cfg capture recentre
          (window_zoom_set maxZoom cfg capture recentre s i L false).1
          (window_zoom_set maxZoom cfg capture recentre s i L false).2 L0 false).1.windows.get?
        (window_zoom_set maxZoom cfg capture recentre
          (window_zoom_set maxZoom cfg capture recentre s i L false).1
          (window_zoom_set maxZoom cfg capture recentre s i L false).2 L0 false).2 = some w2 ∧
      w2.viewport = some v2 ∧
      v2.view_width = v.view_width ∧ v2.view_height = v.view_height ∧ v2.zoom = L0 := by
  have hclL : clampInt 0 L maxZoom = L := by unfold clampInt; omega
  have hclL0 : clampInt 0 L0 maxZoom = L0 := by unfold clampInt; omega
  by_cases hLL : L0 = L
  · have hnoop1 : window_zoom_set maxZoom cfg capture recentre s i L false = (s, i) :=
      c6_zoom_set_noop maxZoom cfg capture recentre s i w v L hw hv (by omega)
    rw [hnoop1]
    have hnoop2 : window_zoom_set maxZoom cfg capture recentre s i L0 false = (s, i) :=
      c6_zoom_set_noop maxZoom cfg capture recentre s i w v L0 hw hv (by omega)
    rw [hnoop2]
    exact ⟨w, v, hw, hv, rfl, rfl, hz⟩
  · obtain ⟨w5, v5, hget5, hv5, hz5, hw5, hh5⟩ :=
      c6_zoom_set_effect maxZoom cfg capture recentre s i w v L hw hv hclL (by omega)
    obtain ⟨w6, v6, hget6, hv6, hz6, hw6, hh6⟩ :=
      c6_zoom_set_effect maxZoom cfg capture recentre
        (window_zoom_set maxZoom cfg capture recentre s i L false).1
        (window_zoom_set maxZoom cfg capture recentre s i L false).2
        w5 v5 L0 hget5 hv5 hclL0 (by omega)
    refine ⟨w6, v6, hget6, hv6, ?_, ?_, hz6⟩
    · rw [hw6, hw5, hz5, hz]
      rcases Int.lt_or_lt_of_ne hLL with hlt | hlt
      · -- L0 < L : zoom out first, then back in
        have hk1 : (L0 - L).toNat = 0 := by omega
        have hk0 : (L - L0).toNat = (L - L0).toNat := rfl
        rw [hk1]
        simp only [halveIter, pow_zero, mul_one]
        exact c6_halveIter_mul_pow (L - L0).toNat v.view_width
      · -- L < L0 : zoom in first (divisibility), then back out
        have hk2 : (L - L0).toNat = 0 := by omega
        rw [hk2]
        simp only [pow_zero, mul_one, halveIter]
        rcases hdvd with hle | ⟨hdw, hdh⟩
        · omega
        · exact c6_halveIter_dvd (L0 - L).toNat v.view_width hdw
    · rw [hh6, hh5, hz5, hz]
      rcases Int.lt_or_lt_of_ne hLL with hlt | hlt
      · have hk1 : (L0 - L).toNat = 0 := by omega
        rw [hk1]
        simp only [halveIter, pow_zero, mul_one]
        exact c6_halveIter_mul_pow (L - L0).toNat v.view_height
      · have hk2 : (L - L0).toNat = 0 := by omega
        rw [hk2]
        simp only [pow_zero, mul_one, halveIter]
        rcases hdvd with hle | ⟨hdw, hdh⟩
        · omega
        · exact c6_halveIter_dvd (L0 - L).toNat v.view_height hdh

/-- Witness for C6's amended theorem: even extents (96 by 64) round-trip
from zoom 1 through zoom 0 exactly. -/
theorem c6_witness :
    evenZoomState.windows.get? 0 = some evenZoomWin ∧
    evenZoomWin.viewport = some evenViewport ∧ evenViewport.zoom = 1 ∧
    (∃ w2 v2,
      (window_zoom_set 3 false capNone recNone
          (window_zoom_set 3 false capNone recNone evenZoomState 0 0 false).1
          (window_zoom_set 3 false capNone recNone evenZoomState 0 0 false).2 1 false).1.windows.get?
        (window_zoom_set 3 false capNone recNone
          (window_zoom_set 3 false capNone recNone evenZoomState 0 0 false).1
          (window_zoom_set 3 false capNone recNone evenZoomState 0 0 false).2 1 false).2 = some w2 ∧
      w2.viewport = some v2 ∧
      v2.view_width = evenViewport.view_width ∧
      v2.view_height = evenViewport.view_height ∧ v2.zoom = 1) :=
  ⟨by decide, by decide, by decide,
    c6_window_zoom_set_roundtrip 3 false capNone recNone evenZoomState 0
      evenZoomWin evenViewport 0 1 (by decide) (by decide) (by decide) (by decide)
      (by decide) (by decide) (by decide)
      (Or.inr ⟨by decide, by decide⟩)⟩

/-! ### C8: window_scroll_to_location -/

/-- When every anchor the search radius reaches is obstructed, the search
index runs past the table and is reset to 0. -/
theorem c8_anchor_search_all (above : List Window) (v : Viewport) :
    ∀ (fuel i0 : Nat),
      (∀ j, i0 ≤ j → j < i0 + fuel →
        anchor_obstructed above (anchorPoint v j).1 (anchorPoint v j).2 = true) →
      anchor_search above v fuel i0 = 0 := by
  intro fuel
  induction fuel with
  | zero => intro i0 _; rfl
  | succ fuel ih =>
    intro i0 hobs
    rw [anchor_search]
    have h0 := hobs i0 (Nat.le_refl _) (by omega)
    simp only [h0, Bool.not_true, if_neg (Bool.false_ne_true)]
    exact ih (i0 + 1) (fun j hj1 hj2 => hobs j (by omega) (by omega))

/-- C8: with a viewport, no sprite-follow and scrolling enabled, when all 17
candidate anchors are obscured by windows after this one in z-order,
`window_scroll_to_location` falls back to anchor 0 (the centre): it sets the
saved view from the centre anchor and raises the scrolling-to-location flag
rather than failing or leaving the view untouched. -/
theorem c8_window_scroll_to_location_fallback
    (tileHeight : Int → Int → Int) (coord2d : Int → Int → Int → Int × Int)
    (titleDemo : Bool) (s : WMState) (i : Nat) (w : Window) (v : Viewport)
    (x y z : Int)
    (hw : s.windows.get? i = some w) (hv : w.viewport = some v)
    (hsprite : w.viewport_target_sprite = none)
    (hscroll : w.flags.no_scrolling = false)
    (hobs : ∀ j, j < 17 →
      anchor_obstructed (s.windows.drop (i + 1)) (anchorPoint v j).1 (anchorPoint v j).2
        = true) :
    ∃ w3, (window_scroll_to_location tileHeight coord2d titleDemo s i x y z).windows.get? i =
        some w3 ∧
      w3.saved_view_x = (coord2d x y z).1 - Int.tdiv (v.view_width * 4) 8 ∧
      w3.saved_view_y = (coord2d x y z).2 - Int.tdiv (v.view_height * 4) 8 ∧
      w3.flags.scrolling_to_location = true := by
  have hilen : i < s.windows.length := wm_get?_lt_length hw
  rw [window_scroll_to_location, hw]
  dsimp only
  rw [hv]
  dsimp only
  rw [if_pos rfl]
  simp only [hscroll, Bool.not_false, if_pos rfl]
  set wantUnder := decide (z < tileHeight x y - 16) with hwu
  set vFlag : Viewport := { v with underground := wantUnder } with hvf
  set w2 : Window :=
    { w with
      viewport_smart_follow_sprite := Option.none
      viewport_target_sprite := Option.none
      viewport := some vFlag } with hw2
  set sBase : WMState := { s with windows := s.windows.set i w2 } with hsb
  have hs2windows :
      (if v.underground ≠ wantUnder then window_invalidate sBase w2 else sBase).windows =
        s.windows.set i w2 := by
    by_cases hcond : v.underground ≠ wantUnder
    · rw [if_pos hcond]
      rfl
    · rw [if_neg hcond]
  have hdrop :
      (if v.underground ≠ wantUnder then window_invalidate sBase w2 else sBase).windows.drop
        (i + 1) = s.windows.drop (i + 1) := by
    rw [hs2windows, wm_drop_set_succ]
  have hsearch :
      anchor_search
        ((if v.underground ≠ wantUnder then window_invalidate sBase w2
          else sBase).windows.drop (i + 1)) vFlag 17 0 = 0 := by
    rw [hdrop]
    exact c8_anchor_search_all (s.windows.drop (i + 1)) vFlag 17 0
      (fun j _ hj => hobs j (by omega))
  have hidx :
      (if titleDemo = true then 0
       else anchor_search
        ((if v.underground ≠ wantUnder then window_invalidate sBase w2
          else sBase).windows.drop (i + 1)) vFlag 17 0) = 0 := by
    by_cases ht : titleDemo = true
    · rw [if_pos ht]
    · rw [if_neg ht, hsearch]
  rw [hidx]
  have hlen2 :
      i < (if v.underground ≠ wantUnder then window_invalidate sBase w2
        else sBase).windows.length := by
    rw [hs2windows, List.length_set]
    exact hilen
  exact ⟨_, wm_get?_set_self _ _ _ hlen2, rfl, rfl, rfl⟩

/-- Witness for C8: one huge window in front of `c8win` obscures all 17
anchors, and the saved view is set from the centre anchor. -/
theorem c8_witness :
    c8state.windows.get? 0 = some c8win ∧
    c8win.viewport = some c8viewport ∧
    (∀ j, j < 17 →
      anchor_obstructed (c8state.windows.drop 1) (anchorPoint c8viewport j).1
        (anchorPoint c8viewport j).2 = true) ∧
    (∃ w3, (window_scroll_to_location c8height c8coord false c8state 0 10 20 0).windows.get? 0 =
        some w3 ∧
      w3.saved_view_x = (c8coord 10 20 0).1 - Int.tdiv (c8viewport.view_width * 4) 8 ∧
      w3.saved_view_y = (c8coord 10 20 0).2 - Int.tdiv (c8viewport.view_height * 4) 8 ∧
      w3.flags.scrolling_to_location = true) :=
  ⟨by decide, by decide, by decide,
    c8_window_scroll_to_location_fallback c8height c8coord false c8state 0 c8win
      c8viewport 10 20 0 (by decide) (by decide) (by decide) (by decide) (by decide)⟩

/-! ### C1: window_draw / window_draw_split -/

/-- Every paint call emitted by `window_draw_single` stays inside the
requested rectangle and is non-degenerate. -/
theorem c1_single_sub (dpi : DPI) (vIdx : Nat) (l t r b : Int) (pc : PaintCall)
    (hpc : pc ∈ window_draw_single dpi vIdx l t r b) :
    l ≤ pc.left ∧ pc.right ≤ r ∧ t ≤ pc.top ∧ pc.bottom ≤ b ∧
    pc.left < pc.right ∧ pc.top < pc.bottom := by
  rw [window_draw_single] at hpc
  by_cases hc : max l dpi.x < min r (dpi.x + dpi.width) ∧
      max t dpi.y < min b (dpi.y + dpi.height)
  · rw [if_pos hc] at hpc
    rcases List.mem_singleton.mp hpc with rfl
    dsimp only
    omega
  · rw [if_neg hc] at hpc
    cases hpc

/-- Every paint call emitted by the paint loop stays inside the requested
rectangle and is non-degenerate. -/
theorem c1_paint_loop_sub (dpi : DPI) (ws : List Window) (i : Nat) (l t r b : Int)
    (pc : PaintCall) (hpc : pc ∈ paint_loop dpi ws i l t r b) :
    l ≤ pc.left ∧ pc.right ≤ r ∧ t ≤ pc.top ∧ pc.bottom ≤ b ∧
    pc.left < pc.right ∧ pc.top < pc.bottom := by
  rw [paint_loop] at hpc
  obtain ⟨sub, hsub, hmem⟩ := List.mem_flatten.mp hpc
  obtain ⟨vIdx, -, hsub2⟩ := List.mem_map.mp hsub
  rw [← hsub2, paint_one] at hmem
  cases hget : ws.get? vIdx with
  | none => rw [hget] at hmem; cases hmem
  | some wv =>
    rw [hget] at hmem
    dsimp only at hmem
    by_cases hcond : (vIdx = i ∨ wv.flags.transparent = true) ∧ window_is_visible ws vIdx = true
    · rw [if_pos hcond] at hmem
      exact c1_single_sub dpi vIdx l t r b pc hmem
    · rw [if_neg hcond] at hmem
      cases hmem

/-- Every paint call of `window_draw` stays inside the requested rectangle
and is non-degenerate. -/
theorem c1_draw_sub (dpi : DPI) (ws : List Window) :
    ∀ (fuel : Nat) (i : Nat) (l t r b : Int) (pc : PaintCall),
      pc ∈ window_draw dpi ws fuel i l t r b →
      l ≤ pc.left ∧ pc.right ≤ r ∧ t ≤ pc.top ∧ pc.bottom ≤ b ∧
      pc.left < pc.right ∧ pc.top < pc.bottom := by
  intro fuel
  induction fuel with
  | zero => intro i l t r b pc hpc; cases hpc
  | succ fuel ih =>
    intro i l t r b pc hpc
    rw [window_draw] at hpc
    cases hv : window_is_visible ws i with
    | false =>
      rw [hv] at hpc
      simp only [Bool.not_false, if_pos rfl] at hpc
      cases hpc
    | true =>
      rw [hv] at hpc
      simp only [Bool.not_true, if_neg (Bool.false_ne_true)] at hpc
      cases hocc : findOccluder (ws.drop (i + 1)) l t r b with
      | some tw =>
        rw [hocc] at hpc
        dsimp only at hpc
        have hp := List.find?_some hocc
        have hprops : tw.x < r ∧ tw.y < b ∧ l < tw.x + tw.width ∧ t < tw.y + tw.height := by
          simp only [overlapsOpaque, Bool.and_eq_true, decide_eq_true_eq] at hp
          exact ⟨hp.1.1.1.1, hp.1.1.1.2, hp.1.1.2, hp.1.2⟩
        by_cases h1 : tw.x > l
        · rw [if_pos h1] at hpc
          rcases List.mem_append.mp hpc with hm | hm
          · have := ih i l t tw.x b pc hm
            omega
          · have := ih i tw.x t r b pc hm
            omega
        · rw [if_neg h1] at hpc
          by_cases h2 : tw.x + tw.width < r
          · rw [if_pos h2] at hpc
            rcases List.mem_append.mp hpc with hm | hm
            · have := ih i l t (tw.x + tw.width) b pc hm
              omega
            · have := ih i (tw.x + tw.width) t r b pc hm
              omega
          · rw [if_neg h2] at hpc
            by_cases h3 : tw.y > t
            · rw [if_pos h3] at hpc
              rcases List.mem_append.mp hpc with hm | hm
              · have := ih i l t r tw.y pc hm
                omega
              · have := ih i l tw.y r b pc hm
                omega
            · rw [if_neg h3] at hpc
              by_cases h4 : tw.y + tw.height < b
              · rw [if_pos h4] at hpc
                rcases List.mem_append.mp hpc with hm | hm
                · have := ih i l t r (tw.y + tw.height) pc hm
                  omega
                · have := ih i l (tw.y + tw.height) r b pc hm
                  omega
              · rw [if_neg h4] at hpc
                cases hpc
      | none =>
        rw [hocc] at hpc
        cases hgw : ws.get? i with
        | none => rw [hgw] at hpc; cases hpc
        | some w =>
          rw [hgw] at hpc
          dsimp only at hpc
          by_cases hdeg : max l w.x ≥ min r (w.x + w.width) ∨ max t w.y ≥ min b (w.y + w.height)
          · rw [if_pos hdeg] at hpc
            cases hpc
          · rw [if_neg hdeg] at hpc
            have := c1_paint_loop_sub dpi ws i _ _ _ _ pc hpc
            omega

/-- No paint call of `window_draw` meets any non-transparent window above
the target in z-order. -/
theorem c1_draw_avoid (dpi : DPI) (ws : List Window) :
    ∀ (fuel : Nat) (i : Nat) (l t r b : Int) (pc : PaintCall),
      pc ∈ window_draw dpi ws fuel i l t r b →
      ∀ tw ∈ ws.drop (i + 1), tw.flags.transparent = false →
        rectsDisjoint pc.left pc.top pc.right pc.bottom
          tw.x tw.y (tw.x + tw.width) (tw.y + tw.height) := by
  intro fuel
  induction fuel with
  | zero => intro i l t r b pc hpc; cases hpc
  | succ fuel ih =>
    intro i l t r b pc hpc tw htw htransp
    rw [window_draw] at hpc
    cases hv : window_is_visible ws i with
    | false =>
      rw [hv] at hpc
      simp only [Bool.not_false, if_pos rfl] at hpc
      cases hpc
    | true =>
      rw [hv] at hpc
      simp only [Bool.not_true, if_neg (Bool.false_ne_true)] at hpc
      cases hocc : findOccluder (ws.drop (i + 1)) l t r b with
      | some tw0 =>
        rw [hocc] at hpc
        dsimp only at hpc
        by_cases h1 : tw0.x > l
        · rw [if_pos h1] at hpc
          rcases List.mem_append.mp hpc with hm | hm
          · exact ih i l t tw0.x b pc hm tw htw htransp
          · exact ih i tw0.x t r b pc hm tw htw htransp
        · rw [if_neg h1] at hpc
          by_cases h2 : tw0.x + tw0.width < r
          · rw [if_pos h2] at hpc
            rcases List.mem_append.mp hpc with hm | hm
            · exact ih i l t (tw0.x + tw0.width) b pc hm tw htw htransp
            · exact ih i (tw0.x + tw0.width) t r b pc hm tw htw htransp
          · rw [if_neg h2] at hpc
            by_cases h3 : tw0.y > t
            · rw [if_pos h3] at hpc
              rcases List.mem_append.mp hpc with hm | hm
              · exact ih i l t r tw0.y pc hm tw htw htransp
              · exact ih i l tw0.y r b pc hm tw htw htransp
            · rw [if_neg h3] at hpc
              by_cases h4 : tw0.y + tw0.height < b
              · rw [if_pos h4] at hpc
                rcases List.mem_append.mp hpc with hm | hm
                · exact ih i l t r (tw0.y + tw0.height) pc hm tw htw htransp
                · exact ih i l (tw0.y + tw0.height) r b pc hm tw htw htransp
              · rw [if_neg h4] at hpc
                cases hpc
      | none =>
        rw [hocc] at hpc
        have hnone := List.find?_eq_none.mp hocc tw htw
        have hnoover : ¬(tw.x < r ∧ tw.y < b ∧ l < tw.x + tw.width ∧ t < tw.y + tw.height) := by
          intro hcon
          apply hnone
          simp only [overlapsOpaque, Bool.and_eq_true, decide_eq_true_eq, Bool.not_eq_true',
            htransp]
          exact ⟨⟨⟨⟨hcon.1, hcon.2.1⟩, hcon.2.2.1⟩, hcon.2.2.2⟩, trivial⟩
        cases hgw : ws.get? i with
        | none => rw [hgw] at hpc; cases hpc
        | some w =>
          rw [hgw] at hpc
          dsimp only at hpc
          by_cases hdeg : max l w.x ≥ min r (w.x + w.width) ∨ max t w.y ≥ min b (w.y + w.height)
          · rw [if_pos hdeg] at hpc
            cases hpc
          · rw [if_neg hdeg] at hpc
            have hsub := c1_paint_loop_sub dpi ws i _ _ _ _ pc hpc
            unfold rectsDisjoint
            omega

/-- C1: when `window_draw` finds a non-transparent window above the target
overlapping the rectangle, it splits the rectangle into exactly two halves
along the first such occluder's left or right edge when one crosses it,
otherwise along its top or bottom edge, recursing on each half; no paint
call it ever issues reaches into the occluder; and in the spec's concrete
scenario (A at (0,0,100,100), opaque B at (50,50,100,100) in front,
full-screen draw of A) at least two paint calls are issued for A and none
of them paints into B's overlap region (50,50)-(100,100). -/
theorem c1_window_draw_spec (fuel : Nat) (dpi : DPI) (ws : List Window) (i : Nat)
    (l t r b : Int) (tw : Window)
    (hvis : window_is_visible ws i = true)
    (hocc : findOccluder (ws.drop (i + 1)) l t r b = some tw) :
    (l < tw.x →
      window_draw dpi ws (fuel + 1) i l t r b =
        window_draw dpi ws fuel i l t tw.x b ++ window_draw dpi ws fuel i tw.x t r b) ∧
    (tw.x ≤ l → tw.x + tw.width < r →
      window_draw dpi ws (fuel + 1) i l t r b =
        window_draw dpi ws fuel i l t (tw.x + tw.width) b ++
          window_draw dpi ws fuel i (tw.x + tw.width) t r b) ∧
    (tw.x ≤ l → r ≤ tw.x + tw.width → t < tw.y →
      window_draw dpi ws (fuel + 1) i l t r b =
        window_draw dpi ws fuel i l t r tw.y ++ window_draw dpi ws fuel i l tw.y r b) ∧
    (tw.x ≤ l → r ≤ tw.x + tw.width → tw.y ≤ t → tw.y + tw.height < b →
      window_draw dpi ws (fuel + 1) i l t r b =
        window_draw dpi ws fuel i l t r (tw.y + tw.height) ++
          window_draw dpi ws fuel i l (tw.y + tw.height) r b) ∧
    (∀ fuel2 : Nat, ∀ pc ∈ window_draw dpi ws fuel2 i l t r b,
      rectsDisjoint pc.left pc.top pc.right pc.bottom
        tw.x tw.y (tw.x + tw.width) (tw.y + tw.height)) ∧
    (2 ≤ ((window_draw scenDPI [scenA, scenB] 64 0 0 0 640 480).filter
        (fun pc => pc.painted = 0)).length ∧
      ∀ pc ∈ window_draw scenDPI [scenA, scenB] 64 0 0 0 640 480,
        pc.painted = 0 → rectsDisjoint pc.left pc.top pc.right pc.bottom 50 50 100 100) := by
  have hunfold : window_draw dpi ws (fuel + 1) i l t r b =
      match findOccluder (ws.drop (i + 1)) l t r b with
      | some tw =>
        if tw.x > l then
          window_draw dpi ws fuel i l t tw.x b ++ window_draw dpi ws fuel i tw.x t r b
        else if tw.x + tw.width < r then
          window_draw dpi ws fuel i l t (tw.x + tw.width) b ++
            window_draw dpi ws fuel i (tw.x + tw.width) t r b
        else if tw.y > t then
          window_draw dpi ws fuel i l t r tw.y ++ window_draw dpi ws fuel i l tw.y r b
        else if tw.y + tw.height < b then
          window_draw dpi ws fuel i l t r (tw.y + tw.height) ++
            window_draw dpi ws fuel i l (tw.y + tw.height) r b
        else []
      | none =>
        match ws.get? i with
        | none => []
        | some w =>
          let L := max l w.x
          let T := max t w.y
          let R := min r (w.x + w.width)
          let B := min b (w.y + w.height)
          if L ≥ R ∨ T ≥ B then [] else paint_loop dpi ws i L T R B := by
    rw [window_draw, hvis]
    simp only [Bool.not_true, if_neg (Bool.false_ne_true)]
  rw [hunfold, hocc]
  dsimp only
  refine ⟨?_, ?_, ?_, ?_, ?_, ?_, ?_⟩
  · intro h1
    rw [if_pos h1]
  · intro h1 h2
    rw [if_neg (by omega), if_pos h2]
  · intro h1 h2 h3
    rw [if_neg (by omega), if_neg (by omega), if_pos h3]
  · intro h1 h2 h3 h4
    rw [if_neg (by omega), if_neg (by omega), if_neg (by omega), if_pos h4]
  · intro fuel2 pc hpc
    have htwmem : tw ∈ ws.drop (i + 1) := List.mem_of_find?_eq_some hocc
    have htransp : tw.flags.transparent = false := by
      have hp := List.find?_some hocc
      simp only [overlapsOpaque, Bool.and_eq_true, Bool.not_eq_true'] at hp
      exact hp.2
    exact c1_draw_avoid dpi ws fuel2 i l t r b pc hpc tw htwmem htransp
  · decide
  · decide

/-- Witness for C1 at the spec's scenario: the first split runs along B's
left edge x = 50. -/
theorem c1_witness :
    window_is_visible [scenA, scenB] 0 = true ∧
    findOccluder ([scenA, scenB].drop 1) 0 0 640 480 = some scenB ∧
    window_draw scenDPI [scenA, scenB] 64 0 0 0 640 480 =
      window_draw scenDPI [scenA, scenB] 63 0 0 0 50 480 ++
        window_draw scenDPI [scenA, scenB] 63 0 50 0 640 480 :=
  ⟨by decide, by decide,
    (c1_window_draw_spec 63 scenDPI [scenA, scenB] 0 0 0 640 480 scenB
      (by decide) (by decide)).1 (by decide)⟩

end WM
